import Mathlib

/-!
# Verification of the Job-fit-engine session pipeline and retrieval core

Shallow embedding of `backend/rag.py` (chunking, role-fit clustering,
structured-extraction fallback chain, index/metadata lifecycle, job status and
add-materials orchestration).  Python strings are modelled as `List Char` /
`String`, Python floats as exact rationals `ℚ`, Python `None`-able values as
`Option`, and the external collaborators (Gemini generation/embedding, FAISS
search) as abstract function parameters, exactly at the call boundary the
source uses them.
-/

namespace JobFit

/-! ## Python string primitives -/

/-- Python `str.isspace` on the characters produced by this code base
(ASCII whitespace: space, tab, newline, carriage return, form feed,
vertical tab). -/
def pyIsSpace (c : Char) : Bool :=
  c = ' ' || c = '\t' || c = '\n' || c = '\x0d' || c = '\x0c' || c = '\x0b'

/-- Python `str.strip()` on a list of characters: drop leading and trailing
whitespace. -/
def pyStrip (l : List Char) : List Char :=
  ((l.dropWhile pyIsSpace).reverse.dropWhile pyIsSpace).reverse

/-- Python `str.strip(chars)`: drop leading and trailing characters drawn from
the given set. -/
def pyStripSet (set : List Char) (l : List Char) : List Char :=
  ((l.dropWhile (set.contains ·)).reverse.dropWhile (set.contains ·)).reverse

/-- Python slice `text[start:stop]` for non-negative bounds. -/
def pySlice (l : List Char) (start stop : Nat) : List Char :=
  (l.take stop).drop start

/-- `String` wrapper for `pyStrip`. -/
def pyStripS (s : String) : String := String.mk (pyStrip s.data)

/-- Python `sep.join(xs)`. -/
def pyJoin (sep : String) (xs : List String) : String :=
  String.intercalate sep xs

/-- Python truthiness of a string (`""` is falsy). -/
def pyTruthy (s : String) : Bool := s ≠ ""

/-! ## Sliding-window chunker (`chunk_text`, rag.py lines 214–235)

`chunk_size` and `overlap` default to `get_chunk_size() = 800` and
`get_chunk_overlap() = 120` (the `CHUNK_SIZE` / `CHUNK_OVERLAP` environment
defaults).  The loop advances `start` by `chunk_size - overlap` each
iteration; the Lean translation carries the hypothesis `overlap < chunk_size`
under which the Python loop terminates (claim C4 analyses the unclamped
configuration separately through the start-position recurrence below). -/

def getChunkSize : Nat := 800
def getChunkOverlap : Nat := 120
def getTopK : Nat := 6

/-- Loop body of `chunk_text`, recursing on the window start position.
Each iteration takes `text[start:start+chunkSize]`, keeps the stripped chunk
when non-empty, and advances `start` to `end - overlap`. -/
def chunkTextGo (text : List Char) (chunkSize overlap : Nat)
    (hov : overlap < chunkSize) (start : Nat) : List (List Char) :=
  if h : start < text.length then
    let chunk := pySlice text start (start + chunkSize)
    let rest := chunkTextGo text chunkSize overlap hov (start + chunkSize - overlap)
    if (pyStrip chunk).isEmpty then rest else pyStrip chunk :: rest
  else []
  termination_by text.length - start
  decreasing_by
    have h1 : start < start + chunkSize - overlap := by omega
    omega

/-- `chunk_text(text, chunk_size, overlap)`. -/
def chunkText (text : List Char) (chunkSize overlap : Nat)
    (hov : overlap < chunkSize) : List (List Char) :=
  if text.isEmpty then [] else chunkTextGo text chunkSize overlap hov 0

/-- The start-position recurrence of the `chunk_text` loop, over `ℤ`
(Python integers): `start = (start + chunk_size) - overlap`. -/
def chunkNextStart (chunkSize overlap start : Int) : Int :=
  start + chunkSize - overlap

/-- Start position after `k` executions of the `chunk_text` loop body. -/
def chunkStartIter (chunkSize overlap : Int) : Nat → Int
  | 0 => 0
  | k + 1 => chunkNextStart chunkSize overlap (chunkStartIter chunkSize overlap k)

/-- The `chunk_text` loop terminates on a text of length `len` iff some
iterate of the start position reaches `len` (both the `while start <
len(text)` guard and the trailing `if start >= len(text): break` exit on
exactly this condition). -/
def chunkLoopTerminates (len chunkSize overlap : Int) : Prop :=
  ∃ k : Nat, len ≤ chunkStartIter chunkSize overlap k

/-! ## Role-fit clustering distribution (`run_clustering`, rag.py lines 1025–1121)

Python floats are modelled as exact rationals.  An assignment dict from the
classification collaborator is modelled by its fields read in the code:
`role_tiers` (absent / non-list ↦ `none`), `ownership`, `clusters`. -/

/-- A JSON scalar as it reaches `rt.get("tier")`: `None`, an integer, or a
string. -/
inductive PyVal where
  | vnone : PyVal
  | vint (n : Int) : PyVal
  | vstr (s : String) : PyVal
deriving Repr, DecidableEq

/-- `TIER_WEIGHT = {1: 1.0, 2: 0.6, 3: 0.3}` read through `dict.get`
(rag.py line 44). -/
def TIER_WEIGHT : Int → Option ℚ
  | 1 => some 1
  | 2 => some (6/10)
  | 3 => some (3/10)
  | _ => none

/-- `OWNERSHIP_MULT` read through `dict.get` (rag.py lines 45–51). -/
def OWNERSHIP_MULT : String → Option ℚ
  | "primary" => some 1
  | "parallel" => some (8/10)
  | "earlier_career" => some (7/10)
  | "add_on" => some (6/10)
  | "coursework" => some (4/10)
  | _ => none

/-- `OWNERSHIP_MULT.get(a.get("ownership"), 1.0)`: default multiplier `1.0`
when the ownership is absent or unrecognized (rag.py line 1049). -/
def ownershipMultGet (o : Option String) : ℚ :=
  (o.bind OWNERSHIP_MULT).getD 1

/-- `tier = int(tier_raw) if isinstance(tier_raw, str) and tier_raw.isdigit()
else tier_raw` (rag.py line 1053). -/
def coerceTier : PyVal → PyVal
  | .vstr s =>
      if !s.isEmpty && s.data.all Char.isDigit then .vint (s.toNat?.getD 0 : Nat)
      else .vstr s
  | v => v

/-- `TIER_WEIGHT.get(tier)` on the coerced tier value (rag.py line 1056). -/
def tierWeightGet : PyVal → Option ℚ
  | .vint n => TIER_WEIGHT n
  | _ => none

/-- One entry of an assignment's `role_tiers` list. -/
structure RoleTier where
  role : Option String
  tier : PyVal
deriving Repr, DecidableEq

/-- One assignment dict from the classification collaborator, restricted to
the fields `run_clustering` reads for the distribution. -/
structure Assignment where
  role_tiers : Option (List RoleTier)
  ownership : Option String
  clusters : List String
deriving Repr, DecidableEq

/-- `valid_cids = ["MLE", "DS", "SWE", "QR", "QD"]` (rag.py line 1038). -/
def validCids : List String := ["MLE", "DS", "SWE", "QR", "QD"]

/-- The `weighted` dict over the five role ids. -/
structure Weights where
  mle : ℚ
  ds : ℚ
  swe : ℚ
  qr : ℚ
  qd : ℚ
deriving Repr, DecidableEq

/-- `weighted = {c: 0.0 for c in valid_cids}` (rag.py line 1045). -/
def Weights.zero : Weights := ⟨0, 0, 0, 0, 0⟩

/-- `weighted[c]` for `c` among the five role ids (0 otherwise). -/
def Weights.get (w : Weights) (c : String) : ℚ :=
  if c = "MLE" then w.mle
  else if c = "DS" then w.ds
  else if c = "SWE" then w.swe
  else if c = "QR" then w.qr
  else if c = "QD" then w.qd
  else 0

/-- `weighted[c] += q` (only ever executed for `c` among the five ids). -/
def Weights.add (w : Weights) (c : String) (q : ℚ) : Weights :=
  if c = "MLE" then { w with mle := w.mle + q }
  else if c = "DS" then { w with ds := w.ds + q }
  else if c = "SWE" then { w with swe := w.swe + q }
  else if c = "QR" then { w with qr := w.qr + q }
  else if c = "QD" then { w with qd := w.qd + q }
  else w

/-- `sum(weighted.values())` (rag.py line 1068). -/
def Weights.total (w : Weights) : ℚ := w.mle + w.ds + w.swe + w.qr + w.qd

/-- Inner loop body of tiered mode (rag.py lines 1050–1059): skip a pair
whose role is not a valid cluster id or whose tier has no weight, otherwise
add `tier_weight * ownership_mult` to the role's total. -/
def tieredAddRT (ownershipMult : ℚ) (w : Weights) (rt : RoleTier) : Weights :=
  match rt.role with
  | none => w
  | some r =>
      if validCids.contains r then
        match tierWeightGet (coerceTier rt.tier) with
        | none => w
        | some tw => w.add r (tw * ownershipMult)
      else w

/-- Outer loop body of tiered mode (rag.py lines 1047–1059). -/
def tieredAssignment (w : Weights) (a : Assignment) : Weights :=
  (a.role_tiers.getD []).foldl (tieredAddRT (ownershipMultGet a.ownership)) w

/-- Tiered-mode accumulation over all assignments. -/
def tieredWeights (assignments : List Assignment) : Weights :=
  assignments.foldl tieredAssignment Weights.zero

/-- Equal-split fallback body (rag.py lines 1061–1067). -/
def equalSplitAssignment (w : Weights) (a : Assignment) : Weights :=
  let cl := a.clusters.filter validCids.contains
  if cl.isEmpty then w
  else cl.foldl (fun w c => w.add c (1 / cl.length)) w

/-- Equal-split accumulation over all assignments. -/
def equalSplitWeights (assignments : List Assignment) : Weights :=
  assignments.foldl equalSplitAssignment Weights.zero

/-- `use_gt = any(isinstance(a.get("role_tiers"), list) and
len(a.get("role_tiers", [])) > 0 for a in assignments)` (rag.py 1041–1044). -/
def useGt (assignments : List Assignment) : Bool :=
  assignments.any fun a =>
    match a.role_tiers with
    | some l => !l.isEmpty
    | none => false

/-- The `weighted` totals computed by `run_clustering` (tiered mode when any
assignment carries role-tier data, else equal split). -/
def runClusteringWeights (assignments : List Assignment) : Weights :=
  if useGt assignments then tieredWeights assignments
  else equalSplitWeights assignments

/-- `role_fit_distribution = {c: weighted[c] / total_w if total_w > 0 else
0.0 for c in valid_cids}` (rag.py line 1069).  Total over `ℚ`, so the zero
total is handled by the explicit guard, never by dividing by zero. -/
def roleFitDistribution (assignments : List Assignment) : Weights :=
  let w := runClusteringWeights assignments
  let t := w.total
  if 0 < t then ⟨w.mle / t, w.ds / t, w.swe / t, w.qr / t, w.qd / t⟩
  else Weights.zero

/-- Specification-side restatement for claim C1: the weight a single
assignment contributes to role `r` — one `tier_weight(tier) *
ownership_multiplier(ownership)` term per `(role, tier)` pair whose role is
`r` (pairs with unknown tier contribute 0). -/
def contribution (r : String) (a : Assignment) : ℚ :=
  ((a.role_tiers.getD []).map fun rt =>
    if rt.role = some r then
      ((tierWeightGet (coerceTier rt.tier)).getD 0) * ownershipMultGet a.ownership
    else 0).sum

/-- First assignment of the concrete scenario in the spec (§8):
`{role_tiers: [{role: "MLE", tier: 1}], ownership: "primary"}`. -/
def exA1 : Assignment :=
  { role_tiers := some [⟨some "MLE", .vint 1⟩], ownership := some "primary",
    clusters := [] }

/-- Second assignment of the concrete scenario in the spec (§8):
`{role_tiers: [{role: "SWE", tier: 2}], ownership: "parallel"}`. -/
def exA2 : Assignment :=
  { role_tiers := some [⟨some "SWE", .vint 2⟩], ownership := some "parallel",
    clusters := [] }

lemma Weights.get_zero (r : String) : Weights.zero.get r = 0 := by
  unfold Weights.zero Weights.get; split_ifs <;> rfl

lemma Weights.get_add (w : Weights) (c r : String) (q : ℚ) (hc : c ∈ validCids) :
    (w.add c q).get r = w.get r + (if c = r then q else 0) := by
  simp only [validCids, List.mem_cons, List.not_mem_nil, or_false] at hc
  by_cases hr : c = r
  · subst hr
    rcases hc with rfl | rfl | rfl | rfl | rfl <;> simp [Weights.add, Weights.get]
  · rcases hc with rfl | rfl | rfl | rfl | rfl <;>
      simp [Weights.add, Weights.get, hr, Ne.symm hr]

/-- Per-pair unfolding of the tiered inner loop. -/
lemma tieredAddRT_get (m : ℚ) (w : Weights) (rt : RoleTier) (r : String)
    (hr : r ∈ validCids) :
    (tieredAddRT m w rt).get r
      = w.get r + (if rt.role = some r then
          ((tierWeightGet (coerceTier rt.tier)).getD 0) * m else 0) := by
  cases hrole : rt.role with
  | none => simp [tieredAddRT, hrole]
  | some c =>
    by_cases hvc : validCids.contains c
    · have hc : c ∈ validCids := by simpa using hvc
      cases htw : tierWeightGet (coerceTier rt.tier) with
      | none => simp [tieredAddRT, hrole, hc, htw]
      | some tw =>
        simp [tieredAddRT, hrole, hc, htw, Weights.get_add w c r (tw * m) hc]
    · have hnc : c ∉ validCids := by simpa using hvc
      have hcne : c ≠ r := fun h => hnc (h ▸ hr)
      simp [tieredAddRT, hrole, hnc, hcne]

lemma foldl_tieredAddRT_get (m : ℚ) (l : List RoleTier) (w : Weights)
    (r : String) (hr : r ∈ validCids) :
    ((l.foldl (tieredAddRT m) w).get r)
      = w.get r + (l.map fun rt =>
          if rt.role = some r then
            ((tierWeightGet (coerceTier rt.tier)).getD 0) * m else 0).sum := by
  induction l generalizing w with
  | nil => simp
  | cons rt l ih =>
    rw [List.foldl_cons, ih, List.map_cons, List.sum_cons,
      tieredAddRT_get m w rt r hr]
    ring

lemma tieredWeights_get (assignments : List Assignment) (r : String)
    (hr : r ∈ validCids) :
    (tieredWeights assignments).get r
      = (assignments.map (contribution r)).sum := by
  suffices h : ∀ w, ((assignments.foldl tieredAssignment w).get r)
      = w.get r + (assignments.map (contribution r)).sum by
    rw [tieredWeights, h Weights.zero, Weights.get_zero, zero_add]
  induction assignments with
  | nil => simp
  | cons a l ih =>
    intro w
    rw [List.foldl_cons, ih, List.map_cons, List.sum_cons, tieredAssignment,
      foldl_tieredAddRT_get _ _ _ _ hr, contribution]
    ring

/-- The concrete scenario carries role-tier data, so tiered mode is used. -/
lemma useGt_ex : useGt [exA1, exA2] = true := by
  simp [useGt, exA1, exA2]

/-- Evaluation of the weighted totals on the spec's concrete scenario. -/
lemma exWeights_eval :
    runClusteringWeights [exA1, exA2] = ⟨1, 0, 12/25, 0, 0⟩ := by
  rw [runClusteringWeights, if_pos useGt_ex]
  simp only [tieredWeights, tieredAssignment, tieredAddRT, exA1, exA2,
    tierWeightGet, coerceTier, TIER_WEIGHT, ownershipMultGet, OWNERSHIP_MULT,
    Weights.add, Weights.zero, validCids, List.foldl, Option.getD,
    List.contains, String.reduceEq, Weights.mk.injEq]
  norm_num

/-- Evaluation of the distribution on the spec's concrete scenario. -/
lemma exDist_eval :
    roleFitDistribution [exA1, exA2] = ⟨25/37, 0, 12/37, 0, 0⟩ := by
  rw [roleFitDistribution]
  simp only [exWeights_eval]
  norm_num [Weights.total, Weights.mk.injEq]

/-- The total weight on the concrete scenario, `1.48 = 37/25`, is positive. -/
lemma exTotal_pos : 0 < (runClusteringWeights [exA1, exA2]).total := by
  rw [exWeights_eval]; norm_num [Weights.total]

/-- On the empty assignment list the distribution is all-zero. -/
lemma roleFitDistribution_nil :
    roleFitDistribution ([] : List Assignment) = Weights.zero := by
  norm_num [roleFitDistribution, runClusteringWeights, useGt,
    equalSplitWeights, Weights.zero, Weights.total, List.foldl]

/-- C1.  In tiered mode every assignment contributes, per `(role, tier)`
pair targeting a valid role, exactly `tier_weight(tier) *
ownership_multiplier(ownership)` to that role's total; on the spec's concrete
two-assignment scenario the totals are `MLE = 1`, `SWE = 0.48 = 12/25` and
the distribution is `MLE = 1/1.48 = 25/37`, `SWE = 0.48/1.48 = 12/37`,
all other roles `0`. -/
theorem runClustering_tiered_mode :
    (∀ assignments : List Assignment, useGt assignments = true →
        ∀ r ∈ validCids,
          (runClusteringWeights assignments).get r
            = (assignments.map (contribution r)).sum)
    ∧ runClusteringWeights [exA1, exA2] = ⟨1, 0, 12/25, 0, 0⟩
    ∧ roleFitDistribution [exA1, exA2] = ⟨25/37, 0, 12/37, 0, 0⟩ := by
  refine ⟨fun assignments h r hr => ?_, exWeights_eval, exDist_eval⟩
  rw [runClusteringWeights, if_pos h]
  exact tieredWeights_get assignments r hr

/-- Witness for C1: the tiered-mode characterization applied to the spec's
concrete scenario at role `MLE`. -/
theorem runClustering_tiered_mode_witness :
    (runClusteringWeights [exA1, exA2]).get "MLE"
      = ([exA1, exA2].map (contribution "MLE")).sum :=
  runClustering_tiered_mode.1 [exA1, exA2] useGt_ex "MLE" (by simp [validCids])

/-- C2.  The distribution is each role's accumulated weight divided by the
total when the total is positive (hence the five values sum to exactly 1 in
the rational model), and is identically zero when the total weight is zero —
in particular on the empty assignment list; the guard makes the value total,
never a division by zero. -/
theorem roleFit_normalization (assignments : List Assignment) :
    (0 < (runClusteringWeights assignments).total →
        ((roleFitDistribution assignments).mle
          + (roleFitDistribution assignments).ds
          + (roleFitDistribution assignments).swe
          + (roleFitDistribution assignments).qr
          + (roleFitDistribution assignments).qd = 1)
        ∧ ∀ r ∈ validCids,
            (roleFitDistribution assignments).get r
              = (runClusteringWeights assignments).get r
                  / (runClusteringWeights assignments).total)
    ∧ ((runClusteringWeights assignments).total = 0 →
        roleFitDistribution assignments = Weights.zero)
    ∧ roleFitDistribution ([] : List Assignment) = Weights.zero := by
  refine ⟨fun hpos => ⟨?_, fun r hr => ?_⟩, fun hzero => ?_, roleFitDistribution_nil⟩
  · have hne : (runClusteringWeights assignments).total ≠ 0 := ne_of_gt hpos
    rw [roleFitDistribution]
    simp only [if_pos hpos]
    rw [div_add_div_same, div_add_div_same, div_add_div_same, div_add_div_same]
    exact div_self hne
  · rw [roleFitDistribution]
    simp only [if_pos hpos]
    simp only [validCids, List.mem_cons, List.not_mem_nil, or_false] at hr
    rcases hr with rfl | rfl | rfl | rfl | rfl <;> simp [Weights.get]
  · rw [roleFitDistribution]
    simp only [hzero]
    norm_num

/-- Witness for C2: on the concrete scenario the total `1.48` is positive and
the five shares sum to 1; on the empty list the distribution is all-zero. -/
theorem roleFit_normalization_witness :
    ((roleFitDistribution [exA1, exA2]).mle
      + (roleFitDistribution [exA1, exA2]).ds
      + (roleFitDistribution [exA1, exA2]).swe
      + (roleFitDistribution [exA1, exA2]).qr
      + (roleFitDistribution [exA1, exA2]).qd = 1)
    ∧ roleFitDistribution ([] : List Assignment) = Weights.zero :=
  ⟨((roleFit_normalization [exA1, exA2]).1 exTotal_pos).1,
    (roleFit_normalization []).2.2⟩

/-! ## Chunker lemmas and claims C3 / C4 -/

/-- `chunk_text(text)` with the default parameters
`chunk_size = 800`, `overlap = 120`. -/
def chunkTextDefault (text : List Char) : List (List Char) :=
  chunkText text getChunkSize getChunkOverlap (by norm_num [getChunkSize, getChunkOverlap])

lemma mem_dropWhile_of_mem {α : Type} {p : α → Bool} {c : α} {l : List α}
    (hc : p c = false) (h : c ∈ l) : c ∈ l.dropWhile p := by
  induction l with
  | nil => simp at h
  | cons a l ih =>
    rw [List.dropWhile_cons]
    by_cases hpa : p a = true
    · rcases List.mem_cons.mp h with rfl | h2
      · rw [hpa] at hc; cases hc
      · simpa [hpa] using ih h2
    · simpa [hpa] using h

/-- A non-whitespace character of a string survives `str.strip()`. -/
lemma mem_pyStrip {c : Char} {l : List Char}
    (hc : pyIsSpace c = false) (h : c ∈ l) : c ∈ pyStrip l := by
  unfold pyStrip
  have h1 : c ∈ l.dropWhile pyIsSpace := mem_dropWhile_of_mem hc h
  have h2 : c ∈ (l.dropWhile pyIsSpace).reverse := by simpa using h1
  have h3 := mem_dropWhile_of_mem hc h2
  simpa using h3

/-- A non-empty stripped string contains a non-whitespace character. -/
lemma pyStrip_has_nonspace {l : List Char} (h : pyStrip l ≠ []) :
    ∃ c ∈ pyStrip l, pyIsSpace c = false := by
  unfold pyStrip at h ⊢
  set m := (l.dropWhile pyIsSpace).reverse with hm
  have hne : m.dropWhile pyIsSpace ≠ [] := by
    intro h0; exact h (by rw [h0]; rfl)
  refine ⟨(m.dropWhile pyIsSpace).head hne, ?_, ?_⟩
  · simpa using List.head_mem hne
  · exact List.head_dropWhile_not pyIsSpace m hne

/-- A character position inside the window `[start, stop)` lies in the slice
`text[start:stop]`. -/
lemma mem_pySlice {text : List Char} {i start stop : Nat}
    (h : i < text.length) (h1 : start ≤ i) (h2 : i < stop) :
    text[i] ∈ pySlice text start stop := by
  unfold pySlice
  have hlen : i - start < ((text.take stop).drop start).length := by
    simp only [List.length_drop, List.length_take]
    omega
  have : ((text.take stop).drop start)[i - start] = text[i] := by
    rw [List.getElem_drop]
    rw [List.getElem_take]
    congr 1
    omega
  rw [← this]
  exact List.getElem_mem hlen

/-- Every chunk emitted by the `chunk_text` loop is non-empty and contains a
non-whitespace character. -/
lemma chunkTextGo_chunks_nonblank (text : List Char) (cs ov : Nat)
    (hov : ov < cs) :
    ∀ start, ∀ ch ∈ chunkTextGo text cs ov hov start,
      ch ≠ [] ∧ ∃ c ∈ ch, pyIsSpace c = false := by
  have main : ∀ n start, text.length - start ≤ n →
      ∀ ch ∈ chunkTextGo text cs ov hov start,
        ch ≠ [] ∧ ∃ c ∈ ch, pyIsSpace c = false := by
    intro n
    induction n with
    | zero =>
      intro start hle ch hch
      rw [chunkTextGo] at hch
      have : ¬ start < text.length := by omega
      rw [dif_neg this] at hch
      simp at hch
    | succ n ih =>
      intro start hle ch hch
      rw [chunkTextGo] at hch
      by_cases hs : start < text.length
      · rw [dif_pos hs] at hch
        have hrec := ih (start + cs - ov) (by omega)
        by_cases he : (pyStrip (pySlice text start (start + cs))).isEmpty
        · rw [if_pos he] at hch
          exact hrec ch hch
        · rw [if_neg he] at hch
          rcases List.mem_cons.mp hch with rfl | h2
          · have hne : pyStrip (pySlice text start (start + cs)) ≠ [] := by
              simpa [List.isEmpty_iff] using he
            exact ⟨hne, pyStrip_has_nonspace hne⟩
          · exact hrec ch h2
      · rw [dif_neg hs] at hch
        simp at hch
  intro start
  exact main (text.length - start) start le_rfl

/-- Every non-whitespace character at a position `≥ start` occurs in a chunk
emitted by the `chunk_text` loop started at `start`. -/
lemma chunkTextGo_coverage (text : List Char) (cs ov : Nat) (hov : ov < cs) :
    ∀ start i (h : i < text.length), start ≤ i →
      pyIsSpace text[i] = false →
      ∃ ch ∈ chunkTextGo text cs ov hov start, text[i] ∈ ch := by
  have main : ∀ n start, text.length - start ≤ n →
      ∀ i (h : i < text.length), start ≤ i →
        pyIsSpace text[i] = false →
        ∃ ch ∈ chunkTextGo text cs ov hov start, text[i] ∈ ch := by
    intro n
    induction n with
    | zero => intro start hle i h h1 _; omega
    | succ n ih =>
      intro start hle i h h1 hsp
      have hs : start < text.length := by omega
      rw [chunkTextGo, dif_pos hs]
      by_cases hwin : i < start + cs
      · have hmem : text[i] ∈ pySlice text start (start + cs) :=
          mem_pySlice h h1 hwin
        have hmemstr : text[i] ∈ pyStrip (pySlice text start (start + cs)) :=
          mem_pyStrip hsp hmem
        have hne : ¬ (pyStrip (pySlice text start (start + cs))).isEmpty := by
          simp only [List.isEmpty_iff]
          intro h0
          rw [h0] at hmemstr
          simp at hmemstr
        rw [if_neg hne]
        exact ⟨_, List.mem_cons_self _ _, hmemstr⟩
      · have hrec := ih (start + cs - ov) (by omega) i h (by omega) hsp
        rcases hrec with ⟨ch, hch, hc⟩
        by_cases he : (pyStrip (pySlice text start (start + cs))).isEmpty
        · rw [if_pos he]; exact ⟨ch, hch, hc⟩
        · rw [if_neg he]; exact ⟨ch, List.mem_cons_of_mem _ hch, hc⟩
  intro start
  exact main (text.length - start) start le_rfl

/-- Amended C3.  With the default parameters, `chunk_text` returns no empty
or whitespace-only chunk, and every **non-whitespace** character of the
input occurs in at least one returned chunk.  (Whitespace characters at
window edges are removed by the per-chunk `strip()`, so full-character
coverage as literally claimed fails — see the counterexample.) -/
theorem chunkText_coverage_amended (text : List Char) :
    (∀ ch ∈ chunkTextDefault text, ch ≠ [] ∧ ∃ c ∈ ch, pyIsSpace c = false)
    ∧ ∀ (i : Nat) (h : i < text.length), pyIsSpace text[i] = false →
        ∃ ch ∈ chunkTextDefault text, text[i] ∈ ch := by
  constructor
  · intro ch hch
    unfold chunkTextDefault chunkText at hch
    by_cases hemp : text.isEmpty
    · rw [if_pos hemp] at hch; simp at hch
    · rw [if_neg hemp] at hch
      exact chunkTextGo_chunks_nonblank text _ _ _ 0 ch hch
  · intro i h hsp
    unfold chunkTextDefault chunkText
    have hemp : ¬ text.isEmpty := by
      simp only [List.isEmpty_iff]
      intro h0; rw [h0] at h; simp at h
    rw [if_neg hemp]
    exact chunkTextGo_coverage text _ _ _ 0 i h (Nat.zero_le i) hsp

/-- Witness for the amended C3 at the concrete text `"x"`. -/
theorem chunkText_coverage_amended_witness :
    ∃ ch ∈ chunkTextDefault ['x'], ('x' : Char) ∈ ch :=
  (chunkText_coverage_amended ['x']).2 0 (by decide) (by decide)

/-- Counterexample to C3 as stated: on the non-empty input `" a"` the space
character occurs in the text but in no returned chunk (each chunk is
stripped before being kept), so "every character of the input occurs in at
least one returned chunk" fails. -/
theorem chunkText_coverage_counterexample :
    ¬ (∀ text : List Char, text ≠ [] →
        (∀ ch ∈ chunkTextDefault text, ch ≠ [] ∧ ∃ c ∈ ch, pyIsSpace c = false)
        ∧ ∀ c ∈ text, ∃ ch ∈ chunkTextDefault text, c ∈ ch) := by
  intro hclaim
  have h := (hclaim [' ', 'a'] (by decide)).2 ' ' (by decide)
  have heval : chunkTextDefault [' ', 'a'] = [['a']] := by
    unfold chunkTextDefault chunkText getChunkSize getChunkOverlap
    rw [if_neg (by decide)]
    rw [chunkTextGo, dif_pos (by decide : 0 < ([' ', 'a'] : List Char).length)]
    rw [chunkTextGo, dif_neg (by decide : ¬ (0 + 800 - 120 < ([' ', 'a'] : List Char).length))]
    decide
  rw [heval] at h
  simp at h

/-- C4.  Over the integers (Python ints), the start-position recurrence of
the `chunk_text` loop reaches the exit condition `start >= len(text)` for
every text length whenever `0 ≤ overlap < chunk_size`, and never reaches it
on any positive length in the unclamped configuration
`overlap ≥ chunk_size > 0` (the loop runs forever). -/
theorem chunkText_termination :
    (∀ chunkSize overlap len : Int, 0 ≤ overlap → overlap < chunkSize →
        chunkLoopTerminates len chunkSize overlap)
    ∧ (∀ chunkSize overlap len : Int, 0 < chunkSize → chunkSize ≤ overlap →
        1 ≤ len → ¬ chunkLoopTerminates len chunkSize overlap) := by
  have hiter : ∀ (cs ov : Int) (k : Nat),
      chunkStartIter cs ov k = k * (cs - ov) := by
    intro cs ov k
    induction k with
    | zero => simp [chunkStartIter]
    | succ k ih =>
      rw [chunkStartIter, chunkNextStart, ih]
      push_cast
      ring
  constructor
  · intro cs ov len _ hlt
    refine ⟨len.toNat, ?_⟩
    rw [hiter]
    have h1 : (1 : Int) ≤ cs - ov := by omega
    have h2 : (len.toNat : Int) * 1 ≤ (len.toNat : Int) * (cs - ov) :=
      mul_le_mul_of_nonneg_left h1 (by positivity)
    have h3 : len ≤ (len.toNat : Int) := Int.self_le_toNat len
    omega
  · intro cs ov len hcs hle hlen ⟨k, hk⟩
    rw [hiter] at hk
    have h1 : cs - ov ≤ 0 := by omega
    have h2 : (k : Int) * (cs - ov) ≤ 0 :=
      mul_nonpos_of_nonneg_of_nonpos (by positivity) h1
    omega

/-- Witness for C4: the loop with the default `800/120` parameters exits on
a length-5 text, and the unclamped `chunk_size = overlap = 3` configuration
never exits on a length-1 text. -/
theorem chunkText_termination_witness :
    chunkLoopTerminates 5 800 120 ∧ ¬ chunkLoopTerminates 1 3 3 :=
  ⟨chunkText_termination.1 800 120 5 (by norm_num) (by norm_num),
    chunkText_termination.2 3 3 1 (by norm_num) (by norm_num) (by norm_num)⟩

/-! ## Structured resume blocks and header-prefixed chunking
(`_clean_list`, `_format_date_range`, `_build_header`,
`_chunk_block_with_header`, `chunk_structured_resume`,
rag.py lines 365–370 and 860–973) -/

/-- A JSON value as it reaches `_clean_list`: `None`/absent, a list of
strings, or a scalar rendered through `str(...)`. -/
inductive CVal where
  | vnone : CVal
  | vlist (xs : List String) : CVal
  | vstr (s : String) : CVal
deriving Repr, DecidableEq

/-- `_clean_list` (rag.py lines 365–370): falsy values give `[]`; a list is
mapped through `str(v).strip()` keeping only non-empty results; a scalar
gives its trimmed form when non-empty.  (The leading `if not value` branch
coincides with these equations on `[]` and `""`.) -/
def cleanList : CVal → List String
  | .vnone => []
  | .vlist xs => (xs.map pyStripS).filter pyTruthy
  | .vstr s => if pyTruthy (pyStripS s) then [pyStripS s] else []

/-- Python truthiness of an optional string (`None` and `""` are falsy). -/
def pyOptTruthy : Option String → Bool
  | some s => s ≠ ""
  | none => false

/-- Python `a or b` on optional strings. -/
def pyOrOpt (a b : Option String) : Option String :=
  if pyOptTruthy a then a else b

/-- `_format_date_range` (rag.py lines 860–863). -/
def formatDateRange (s e : Option String) : Option String :=
  if pyOptTruthy s && pyOptTruthy e then some (s.getD "" ++ "–" ++ e.getD "")
  else pyOrOpt s e

/-- An `experiences` entry of the structured resume dict. -/
structure ExpBlock where
  block_id : Option String
  company : Option String
  title : Option String
  location : Option String
  start_date : Option String
  end_date : Option String
  bullets : List String
  skills_tags : List String
  ownership : Option String
deriving Repr, DecidableEq

/-- A `projects` entry of the structured resume dict. -/
structure ProjBlock where
  block_id : Option String
  name : Option String
  role : Option String
  location : Option String
  start_date : Option String
  end_date : Option String
  bullets : List String
  skills_tags : List String
  ownership : Option String
deriving Repr, DecidableEq

/-- An `education` entry of the structured resume dict. -/
structure EduBlock where
  block_id : Option String
  school : Option String
  degree : Option String
  field : Option String
  location : Option String
  start_date : Option String
  end_date : Option String
  gpa : Option String
  bullets : List String
deriving Repr, DecidableEq

/-- A typed block together with its `kind` string, as passed to
`_chunk_block_with_header` by `chunk_structured_resume`. -/
inductive Block where
  | exp (b : ExpBlock) : Block
  | proj (b : ProjBlock) : Block
  | edu (b : EduBlock) : Block
deriving Repr, DecidableEq

/-- The `kind` argument `chunk_structured_resume` passes for each list. -/
def Block.kindStr : Block → String
  | .exp _ => "experience"
  | .proj _ => "project"
  | .edu _ => "education"

def Block.blockId : Block → Option String
  | .exp b => b.block_id
  | .proj b => b.block_id
  | .edu b => b.block_id

def Block.startDate : Block → Option String
  | .exp b => b.start_date
  | .proj b => b.start_date
  | .edu b => b.start_date

def Block.endDate : Block → Option String
  | .exp b => b.end_date
  | .proj b => b.end_date
  | .edu b => b.end_date

/-- `block.get("bullets")` as seen by `_clean_list`. -/
def Block.bulletsVal : Block → CVal
  | .exp b => .vlist b.bullets
  | .proj b => .vlist b.bullets
  | .edu b => .vlist b.bullets

/-- `block.get("skills_tags")`: education dicts carry no such key. -/
def Block.tagsVal : Block → CVal
  | .exp b => .vlist b.skills_tags
  | .proj b => .vlist b.skills_tags
  | .edu _ => .vnone

/-- `block.get("ownership")`: education dicts carry no such key. -/
def Block.ownershipVal : Block → Option String
  | .exp b => b.ownership
  | .proj b => b.ownership
  | .edu _ => none

/-- `_build_header` (rag.py lines 866–885): join the present fields with
`" | "`, appending the formatted date range, defaulting to the upper-case
kind name when everything is absent.  (The trailing `return "RESUME"` branch
for an unknown kind is unreachable from `chunk_structured_resume`.) -/
def buildHeader (b : Block) : String :=
  let parts : List (Option String) :=
    match b with
    | .exp e => [e.company, e.title, e.location]
    | .proj p => [p.name, p.role, p.location]
    | .edu d => [d.school, d.degree, d.field, d.location]
  let date := formatDateRange b.startDate b.endDate
  let parts := if pyOptTruthy date then parts ++ [date] else parts
  let joined := pyJoin " | " ((parts.filterMap id).filter pyTruthy)
  if joined = "" then
    match b with
    | .exp _ => "EXPERIENCE"
    | .proj _ => "PROJECT"
    | .edu _ => "EDUCATION"
  else joined

/-- One metadata dict of a session resume chunk (structured entries carry
the block fields; sliding-window fallback entries carry `chunk_index`). -/
structure ResumeMeta where
  chunk_id : String
  text : String
  source_type : String
  session_id : Option String
  block_id : Option String
  block_type : Option String
  sub_index : Option Nat
  header : Option String
  chunk_index : Option Nat
deriving Repr, DecidableEq

/-- `available = max(200, max_chars - len(header) - 2)` (rag.py line 927);
`Nat` truncation agrees with the Python negative case because of the
`max 200`. -/
def chunkAvailable (maxChars : Nat) (header : String) : Nat :=
  max 200 (maxChars - header.length - 2)

/-- Body-windowing loop of `_chunk_block_with_header` (rag.py lines
929–951).  The source appends to `chunks` and `meta` in the same iteration;
the embedding emits the list of `(chunk, meta)` pairs.  The loop advances
`start` to `end - overlap` and the break sits after the append, exactly as
in the source; the carried bound `overlap < available` is what makes the
Python loop progress (with the defaults, `overlap = 150 < 200 ≤ available`). -/
def chunkBlockLoop (header blockId kind : String) (body : List Char)
    (available overlap : Nat) (hlt : overlap < available) (start idx : Nat) :
    List (String × ResumeMeta) :=
  if h : start < body.length then
    let e := min body.length (start + available)
    let segment := pyStrip (pySlice body start e)
    let text := header ++ "\n" ++ String.mk segment
    let entry : String × ResumeMeta :=
      (text,
        { chunk_id := blockId ++ "__" ++ kind ++ "__" ++ toString idx,
          text := text, source_type := "resume", session_id := none,
          block_id := some blockId, block_type := some kind,
          sub_index := some idx, header := some header, chunk_index := none })
    if he : body.length ≤ e then [entry]
    else entry :: chunkBlockLoop header blockId kind body available overlap hlt
      (e - overlap) (idx + 1)
  else []
  termination_by body.length - start
  decreasing_by omega

/-- The `body_lines` list of `_chunk_block_with_header` (rag.py lines
899–905): an ownership line when truthy, a tags line when the cleaned tag
list is non-empty, and one `- ` line per cleaned bullet. -/
def blockBodyLines (b : Block) : List String :=
  (if pyOptTruthy b.ownershipVal then
      ["Ownership: " ++ b.ownershipVal.getD ""] else [])
  ++ (if (cleanList b.tagsVal).isEmpty then []
      else ["Tags: " ++ pyJoin ", " (cleanList b.tagsVal)])
  ++ (cleanList b.bulletsVal).map (fun bl => "- " ++ bl)

/-- `body = "\n".join(body_lines).strip()` (rag.py line 907). -/
def blockBody (b : Block) : String :=
  pyStripS (pyJoin "\n" (blockBodyLines b))

/-- `block.get("block_id") or f"{kind}_{uuid...}"` (rag.py line 908). -/
def effectiveBlockId (b : Block) (freshId : String) : String :=
  (pyOrOpt b.blockId (some freshId)).getD freshId

/-- `_chunk_block_with_header(block, kind, max_chars, overlap)` (rag.py
lines 888–951).  `freshId` models the `f"{kind}_{uuid4().hex[:8]}"` fallback
block id. -/
def chunkBlockWithHeader (b : Block) (maxChars overlap : Nat)
    (hov : overlap < 200) (freshId : String) : List (String × ResumeMeta) :=
  if blockBody b = "" then
    [(buildHeader b,
      { chunk_id := effectiveBlockId b freshId ++ "__" ++ b.kindStr ++ "__0",
        text := buildHeader b, source_type := "resume", session_id := none,
        block_id := some (effectiveBlockId b freshId),
        block_type := some b.kindStr, sub_index := some 0,
        header := some (buildHeader b), chunk_index := none })]
  else
    chunkBlockLoop (buildHeader b) (effectiveBlockId b freshId) b.kindStr
      (blockBody b).data (chunkAvailable maxChars (buildHeader b)) overlap
      (lt_of_lt_of_le hov (le_max_left _ _)) 0 0

/-- The structured resume dict `{experiences, projects, education}`. -/
structure Structured where
  experiences : List ExpBlock
  projects : List ProjBlock
  education : List EduBlock
deriving Repr, DecidableEq

/-- The blocks of a structured resume in the order
`chunk_structured_resume` visits them. -/
def Structured.blocks (s : Structured) : List Block :=
  s.experiences.map .exp ++ s.projects.map .proj ++ s.education.map .edu

/-- `chunk_structured_resume(structured)` (rag.py lines 954–973) with the
default `BLOCK_CHUNK_SIZE = 1200`, `BLOCK_CHUNK_OVERLAP = 150`; `fresh`
supplies the per-block uuid fallback ids. -/
def chunkStructuredResume (fresh : Nat → String) (s : Structured) :
    List (String × ResumeMeta) :=
  (s.blocks.enum).flatMap fun p =>
    chunkBlockWithHeader p.2 1200 150 (by norm_num)
      (p.2.kindStr ++ "_" ++ fresh p.1)

/-! ## Claim C9: header-prefixed chunk shape -/

lemma pyStrip_isInfix (l : List Char) : pyStrip l <:+: l := by
  unfold pyStrip
  have h1 : l.dropWhile pyIsSpace <:+ l := List.dropWhile_suffix _
  have h2 : (l.dropWhile pyIsSpace).reverse.dropWhile pyIsSpace
      <:+ (l.dropWhile pyIsSpace).reverse := List.dropWhile_suffix _
  have h3 : ((l.dropWhile pyIsSpace).reverse.dropWhile pyIsSpace).reverse
      <+: l.dropWhile pyIsSpace :=
    List.reverse_suffix.mp (by simpa using h2)
  exact h3.isInfix.trans h1.isInfix

lemma pyStrip_length_le (l : List Char) : (pyStrip l).length ≤ l.length :=
  (pyStrip_isInfix l).length_le

lemma pySlice_isInfix (l : List Char) (s t : Nat) : pySlice l s t <:+: l :=
  ((List.drop_suffix s (l.take t)).isInfix).trans (List.take_prefix t l).isInfix

lemma pySlice_length (l : List Char) (s t : Nat) :
    (pySlice l s t).length = min t l.length - s := by
  simp [pySlice]

/-- The `(chunk, meta)` shape produced for the chunk with sub-index
`subIdx` of a block with the given header, id, kind and body. -/
def ChunkPairOk (header blockId kind : String) (body : List Char)
    (available : Nat) (subIdx : Nat) (p : String × ResumeMeta) : Prop :=
  (∃ seg : List Char, p.1 = header ++ "\n" ++ String.mk seg
      ∧ seg <:+: body ∧ seg.length ≤ available)
  ∧ p.2.chunk_id = blockId ++ "__" ++ kind ++ "__" ++ toString subIdx
  ∧ p.2.sub_index = some subIdx
  ∧ p.2.text = p.1
  ∧ p.2.header = some header

lemma chunkBlockLoop_spec (header blockId kind : String) (body : List Char)
    (available overlap : Nat) (hlt : overlap < available) :
    ∀ start idx j p,
      (chunkBlockLoop header blockId kind body available overlap hlt start idx)[j]?
        = some p →
      ChunkPairOk header blockId kind body available (idx + j) p := by
  have main : ∀ n start, body.length - start ≤ n → ∀ idx j p,
      (chunkBlockLoop header blockId kind body available overlap hlt start idx)[j]?
        = some p →
      ChunkPairOk header blockId kind body available (idx + j) p := by
    intro n
    induction n with
    | zero =>
      intro start hle idx j p hp
      rw [chunkBlockLoop.eq_def] at hp
      have hns : ¬ start < body.length := by omega
      rw [dif_neg hns] at hp
      simp at hp
    | succ n ih =>
      intro start hle idx j p hp
      rw [chunkBlockLoop.eq_def] at hp
      by_cases hs : start < body.length
      · rw [dif_pos hs] at hp
        simp only at hp
        have hseg : (pyStrip (pySlice body start
            (min body.length (start + available)))).length ≤ available := by
          have h1 := pyStrip_length_le
            (pySlice body start (min body.length (start + available)))
          have h2 := pySlice_length body start (min body.length (start + available))
          omega
        have hinf : pyStrip (pySlice body start
            (min body.length (start + available))) <:+: body :=
          (pyStrip_isInfix _).trans (pySlice_isInfix _ _ _)
        by_cases hbr : body.length ≤ min body.length (start + available)
        · rw [dif_pos hbr] at hp
          match j with
          | 0 =>
            rw [List.getElem?_cons_zero, Option.some.injEq] at hp
            subst hp
            exact ⟨⟨_, rfl, hinf, hseg⟩, by simp, by simp, rfl, rfl⟩
          | j + 1 => simp at hp
        · rw [dif_neg hbr] at hp
          match j with
          | 0 =>
            rw [List.getElem?_cons_zero, Option.some.injEq] at hp
            subst hp
            exact ⟨⟨_, rfl, hinf, hseg⟩, by simp, by simp, rfl, rfl⟩
          | j + 1 =>
            rw [List.getElem?_cons_succ] at hp
            have := ih (min body.length (start + available) - overlap)
              (by omega) (idx + 1) j p hp
            have harith : idx + 1 + j = idx + (j + 1) := by omega
            rwa [harith] at this
      · rw [dif_neg hs] at hp
        simp at hp
  intro start
  exact main (body.length - start) start le_rfl

/-- Amended C9.  Every chunk produced for a typed block starts with the
block's synthesized header verbatim; the metadata text equals the chunk
text; chunk ids are exactly `{block_id}__{block_type}__{sub_index}` with
`sub_index` counting from 0 in order; the windowed part after the header is
a (stripped) contiguous substring of the block body, of at most
`available = max(200, max_chars - len(header) - 2)` characters, so a chunk
has at most `max_chars` characters **provided** the header itself is at most
`max_chars - 202` characters long (the floor of 200 body characters
otherwise makes the chunk exceed `max_chars`; see the counterexample). -/
theorem chunkBlock_header_shape (b : Block) (maxChars overlap : Nat)
    (hov : overlap < 200) (freshId : String) (j : Nat) (p : String × ResumeMeta)
    (hp : (chunkBlockWithHeader b maxChars overlap hov freshId)[j]? = some p) :
    (∃ t : String, p.1 = buildHeader b ++ t)
    ∧ (p.1 = buildHeader b
        ∨ ∃ seg : List Char,
            p.1 = buildHeader b ++ "\n" ++ String.mk seg
            ∧ seg <:+: (blockBody b).data
            ∧ seg.length ≤ chunkAvailable maxChars (buildHeader b))
    ∧ p.2.chunk_id
        = effectiveBlockId b freshId ++ "__" ++ b.kindStr ++ "__" ++ toString j
    ∧ p.2.sub_index = some j
    ∧ p.2.text = p.1
    ∧ ((buildHeader b).length + 202 ≤ maxChars → p.1.length ≤ maxChars) := by
  rw [chunkBlockWithHeader] at hp
  by_cases hbody : blockBody b = ""
  · rw [if_pos hbody] at hp
    match j with
    | 0 =>
      rw [List.getElem?_cons_zero, Option.some.injEq] at hp
      subst hp
      refine ⟨⟨"", by simp⟩, Or.inl rfl, ?_, rfl, rfl, fun hle => by
        show (buildHeader b).length ≤ maxChars
        omega⟩
      show _ ++ "__0" = _
      rw [show ("__0" : String) = "__" ++ toString (0 : Nat) from rfl,
        ← String.append_assoc]
    | j + 1 => simp at hp
  · rw [if_neg hbody] at hp
    have hspec := chunkBlockLoop_spec (buildHeader b) (effectiveBlockId b freshId)
      b.kindStr (blockBody b).data (chunkAvailable maxChars (buildHeader b))
      overlap (lt_of_lt_of_le hov (le_max_left _ _)) 0 0 j p hp
    rw [Nat.zero_add] at hspec
    obtain ⟨⟨seg, hc, hinf, hlen⟩, hid, hsub, htext, _⟩ := hspec
    refine ⟨⟨"\n" ++ String.mk seg, by rw [hc, String.append_assoc]⟩,
      Or.inr ⟨seg, hc, hinf, hlen⟩, hid, hsub, htext, fun hle => ?_⟩
    rw [hc]
    have h1 : ("\n" : String).length = 1 := rfl
    have h2 : (String.mk seg).length = seg.length := rfl
    rw [String.length_append, String.length_append, h1, h2]
    unfold chunkAvailable at hlen
    omega

/-- Block with every field absent: used to witness the amended C9. -/
def trivBlock : Block :=
  .exp { block_id := none, company := none, title := none, location := none,
         start_date := none, end_date := none, bullets := [],
         skills_tags := [], ownership := none }

/-- The single chunk emitted for `trivBlock`. -/
def trivPair : String × ResumeMeta :=
  ("EXPERIENCE",
    { chunk_id := "f__experience__0", text := "EXPERIENCE",
      source_type := "resume", session_id := none, block_id := some "f",
      block_type := some "experience", sub_index := some 0,
      header := some "EXPERIENCE", chunk_index := none })

/-- Witness for the amended C9 on a concrete block whose header is
`"EXPERIENCE"`: its single chunk carries sub-index 0 and fits in 1200
characters. -/
theorem chunkBlock_header_shape_witness :
    trivPair.2.sub_index = some 0 ∧ trivPair.1.length ≤ 1200 :=
  ⟨(chunkBlock_header_shape trivBlock 1200 150 (by norm_num) "f" 0 trivPair
      (by decide)).2.2.2.1,
    (chunkBlock_header_shape trivBlock 1200 150 (by norm_num) "f" 0 trivPair
      (by decide)).2.2.2.2.2 (by decide)⟩

/-- A block whose company name alone is 1201 characters long. -/
def bigBlock : Block :=
  .exp { block_id := some "b1",
         company := some (String.mk (List.replicate 1201 'A')),
         title := none, location := none, start_date := none,
         end_date := none, bullets := [], skills_tags := [],
         ownership := none }

set_option maxRecDepth 10000 in
/-- Counterexample to C9 as stated: with the default `max_chars = 1200`, a
block with a 1201-character company field produces a chunk of 1201 > 1200
characters (the header is always emitted whole, and the body budget never
drops below 200). -/
theorem chunkBlock_maxChars_counterexample :
    ¬ (∀ p ∈ chunkBlockWithHeader bigBlock 1200 150 (by norm_num) "f",
        p.1.length ≤ 1200) := by
  decide

/-! ## Claim C5: index/metadata alignment
(`_run_full_pipeline` lines 1248–1315, `ingest_jds` lines 1125–1181)

The FAISS index is an ordered collection of vectors; `index.add(embeddings)`
with `embeddings = embed_texts(chunks)` appends one vector per chunk (the
embedding collaborator returns one vector per input text, modelled by
mapping an abstract `e : String → V`).  The alignment invariant is stated
as: the saved vector list equals the saved metadata list mapped through
`e ∘ text` — which forces both equal sizes and the positional
correspondence `vector i = e(metadata[i].text)`. -/

/-- Metadata entry appended by the sliding-window fallback of
`_run_full_pipeline` (and by its padding loop, rag.py lines 1263–1272 and
1282–1290). -/
def fallbackMeta (sid : String) (i : Nat) (chunk : String) : ResumeMeta :=
  { chunk_id := "resume_" ++ sid ++ "_" ++ toString i, text := chunk,
    source_type := "resume", session_id := some sid, block_id := none,
    block_type := none, sub_index := none, header := none,
    chunk_index := some i }

/-- The `(chunks, meta)` pair computed by `_run_full_pipeline` before
embedding (rag.py lines 1258–1276): structured-block chunking, falling back
to sliding-window chunking when it yields nothing; the structured branch
stamps `session_id` and `chunk_index` onto each entry. -/
def pipelineChunksMeta (fresh : Nat → String) (sid : String)
    (structured : Structured) (text : String) :
    List String × List ResumeMeta :=
  let pairs := chunkStructuredResume fresh structured
  if pairs.isEmpty then
    let chunks := (chunkTextDefault text.data).map String.mk
    (chunks, chunks.enum.map fun q => fallbackMeta sid q.1 q.2)
  else
    (pairs.map Prod.fst,
      pairs.enum.map fun q =>
        { q.2.2 with session_id := some sid, chunk_index := some q.1 })

/-- The padding loop of `_run_full_pipeline` (rag.py lines 1282–1290):
append a fallback entry for every chunk index past the end of `meta`. -/
def padMeta (sid : String) (chunks : List String) (meta : List ResumeMeta) :
    List ResumeMeta :=
  meta ++ (chunks.enum.drop meta.length).map fun q => fallbackMeta sid q.1 q.2

/-- The `(vectors, metadata)` pair `_run_full_pipeline` persists for a
session: a fresh index holding one embedding per chunk, and the padded
metadata list (rag.py lines 1278–1297). -/
def runFullPipelineIndexMeta {V : Type} (e : String → V) (fresh : Nat → String)
    (sid : String) (structured : Structured) (text : String) :
    List V × List ResumeMeta :=
  let cm := pipelineChunksMeta fresh sid structured text
  (cm.1.map e, padMeta sid cm.1 cm.2)

/-- One metadata dict of the global JD index. -/
structure JdMeta where
  chunk_id : String
  text : String
  source_type : String
  doc_id : String
  role : String
  level : String
  title : String
deriving Repr, DecidableEq

/-- One input item of `ingest_jds`: `{title, role, level, text}` with
`title` read through `item.get` (absent ↦ defaults). -/
structure JdItem where
  title : Option String
  role : String
  level : String
  text : String
deriving Repr, DecidableEq

/-- The `(all_chunks, all_meta)` pairs built by `ingest_jds` (rag.py lines
1140–1155); `fresh i j` models `uuid4().hex[:8]` for chunk `j` of item `i`. -/
def ingestJdsNewPairs (fresh : Nat → Nat → String) (items : List JdItem) :
    List (String × JdMeta) :=
  items.enum.flatMap fun p =>
    ((chunkTextDefault p.2.text.data).map String.mk).enum.map fun q =>
      (q.2,
        { chunk_id := "jd_" ++ p.2.role ++ "_" ++ p.2.level ++ "_"
            ++ fresh p.1 q.1 ++ "_" ++ toString q.1,
          text := q.2, source_type := "jd",
          doc_id := p.2.title.getD "unknown", role := p.2.role,
          level := p.2.level, title := p.2.title.getD "" })

/-- `ingest_jds`: load the existing (possibly absent) index and metadata,
append the new chunks' embeddings and metadata, and persist; when no chunk
was produced, return without persisting anything (rag.py lines 1157–1181).
The result is the persisted `(vectors, metadata)` pair. -/
def ingestJds {V : Type} (e : String → V) (fresh : Nat → Nat → String)
    (existingIndex : Option (List V)) (existingMeta : List JdMeta)
    (items : List JdItem) : List V × List JdMeta :=
  let pairs := ingestJdsNewPairs fresh items
  if pairs.isEmpty then (existingIndex.getD [], existingMeta)
  else ((existingIndex.getD []) ++ (pairs.map Prod.fst).map e,
    existingMeta ++ pairs.map Prod.snd)

lemma chunkBlockWithHeader_text (b : Block) (mc ov : Nat) (hov : ov < 200)
    (f : String) : ∀ p ∈ chunkBlockWithHeader b mc ov hov f, p.2.text = p.1 := by
  intro p hp
  obtain ⟨j, hj⟩ := List.mem_iff_getElem?.mp hp
  rw [chunkBlockWithHeader] at hj
  by_cases hbody : blockBody b = ""
  · rw [if_pos hbody] at hj
    match j with
    | 0 =>
      rw [List.getElem?_cons_zero, Option.some.injEq] at hj
      subst hj; rfl
    | j + 1 => simp at hj
  · rw [if_neg hbody] at hj
    exact (chunkBlockLoop_spec _ _ _ _ _ _ _ 0 0 j p hj).2.2.2.1

lemma chunkStructuredResume_text (fresh : Nat → String) (s : Structured) :
    ∀ p ∈ chunkStructuredResume fresh s, p.2.text = p.1 := by
  intro p hp
  rw [chunkStructuredResume, List.mem_flatMap] at hp
  obtain ⟨q, _, hpq⟩ := hp
  exact chunkBlockWithHeader_text _ _ _ _ _ p hpq

lemma ingestJdsNewPairs_text (fresh : Nat → Nat → String) (items : List JdItem) :
    ∀ p ∈ ingestJdsNewPairs fresh items, p.2.text = p.1 := by
  intro p hp
  rw [ingestJdsNewPairs, List.mem_flatMap] at hp
  obtain ⟨q, _, hpq⟩ := hp
  rw [List.mem_map] at hpq
  obtain ⟨r, _, hr⟩ := hpq
  subst hr; rfl

lemma enum_map_comp_snd {α β : Type} (l : List α) (f : α → β) :
    (l.enum.map fun q => f q.2) = l.map f := by
  rw [show (fun q : Nat × α => f q.2) = f ∘ Prod.snd from rfl,
    ← List.map_map, List.enum_map_snd]

/-- C5.  Index/metadata alignment: the vector list a pipeline run persists
for a session equals its persisted metadata mapped through
`e ∘ text` (hence equal sizes and position-wise correspondence), and
`ingest_jds` preserves the same invariant for the global JD pair assuming it
held for the previously persisted pair. -/
theorem indexMetaAlignment :
    (∀ (V : Type) (e : String → V) (fresh : Nat → String) (sid : String)
        (s : Structured) (text : String),
        (runFullPipelineIndexMeta e fresh sid s text).1
          = (runFullPipelineIndexMeta e fresh sid s text).2.map (fun m => e m.text)
        ∧ (runFullPipelineIndexMeta e fresh sid s text).1.length
          = (runFullPipelineIndexMeta e fresh sid s text).2.length)
    ∧ (∀ (V : Type) (e : String → V) (fresh : Nat → Nat → String)
        (exIdx : Option (List V)) (exMeta : List JdMeta) (items : List JdItem),
        exIdx.getD [] = exMeta.map (fun m => e m.text) →
        (ingestJds e fresh exIdx exMeta items).1
          = (ingestJds e fresh exIdx exMeta items).2.map (fun m => e m.text)
        ∧ (ingestJds e fresh exIdx exMeta items).1.length
          = (ingestJds e fresh exIdx exMeta items).2.length) := by
  constructor
  · intro V e fresh sid s text
    suffices h : (runFullPipelineIndexMeta e fresh sid s text).1
        = (runFullPipelineIndexMeta e fresh sid s text).2.map (fun m => e m.text) by
      refine ⟨h, ?_⟩
      rw [h, List.length_map]
    simp only [runFullPipelineIndexMeta, pipelineChunksMeta]
    by_cases hemp : (chunkStructuredResume fresh s).isEmpty
    · rw [if_pos hemp]
      dsimp only
      simp only [padMeta, List.enum_length]
      rw [List.drop_eq_nil_of_le (by simp), List.map_nil, List.append_nil]
      conv_rhs => rw [List.map_map]
      exact (enum_map_comp_snd _ e).symm
    · rw [if_neg hemp]
      dsimp only
      simp only [padMeta, List.enum_length]
      rw [List.drop_eq_nil_of_le (by simp), List.map_nil, List.append_nil]
      conv_rhs => rw [List.map_map]
      refine Eq.trans ?_
        (enum_map_comp_snd (chunkStructuredResume fresh s)
          (fun p => e p.2.text)).symm
      rw [List.map_map]
      exact List.map_congr_left fun p hp => by
        simp [Function.comp, chunkStructuredResume_text fresh s p hp]
  · intro V e fresh exIdx exMeta items hinv
    suffices h : (ingestJds e fresh exIdx exMeta items).1
        = (ingestJds e fresh exIdx exMeta items).2.map (fun m => e m.text) by
      refine ⟨h, ?_⟩
      rw [h, List.length_map]
    simp only [ingestJds]
    by_cases hemp : (ingestJdsNewPairs fresh items).isEmpty
    · rw [if_pos hemp]
      exact hinv
    · rw [if_neg hemp]
      dsimp only
      rw [List.map_append, ← hinv, List.map_map, List.map_map]
      congr 1
      exact (List.map_congr_left fun p hp => by
        simp [Function.comp, ingestJdsNewPairs_text fresh items p hp]).symm

/-- Witness for C5: the pipeline alignment at a concrete empty structured
resume and text `"x"` (identity embedding), and the JD-ingest alignment
starting from the empty persisted pair. -/
theorem indexMetaAlignment_witness :
    (runFullPipelineIndexMeta (V := String) id (fun _ => "u") "s"
        ⟨[], [], []⟩ "x").1.length
      = (runFullPipelineIndexMeta (V := String) id (fun _ => "u") "s"
        ⟨[], [], []⟩ "x").2.length
    ∧ (ingestJds (V := String) id (fun _ _ => "u") (some []) [] []).1
      = (ingestJds (V := String) id (fun _ _ => "u") (some []) [] []).2.map
          (fun m => id m.text) :=
  ⟨(indexMetaAlignment.1 String id (fun _ => "u") "s" ⟨[], [], []⟩ "x").2,
    (indexMetaAlignment.2 String id (fun _ _ => "u") (some []) [] [] (by simp)).1⟩

/-! ## Claims C8 / C10: add-materials orchestration and read operations
(`start_add_materials` lines 1360–1374, `_add_materials_worker` lines
1344–1357, `get_upload_status` lines 1243–1245, `search_jd_index` lines
1184–1232, `search_resume_index` lines 1377–1412) -/

/-- `UploadStatus` (models.py lines 32–39). -/
inductive UploadStatus where
  | uploading | parsing | chunking | embedding | indexing | ready | error
deriving Repr, DecidableEq

/-- One `UPLOAD_STATUS` record `{status, detail, session_id}`; the default
record returned for an unknown id carries no `session_id` key, modelled as
`none`. -/
structure StatusRec where
  status : UploadStatus
  detail : String
  session_id : Option String
deriving Repr, DecidableEq

/-- `get_upload_status(upload_id)`: `UPLOAD_STATUS.get(upload_id, {"status":
ERROR, "detail": "Unknown upload_id"})` (rag.py lines 1243–1245). -/
def getUploadStatus (statusMap : List (String × StatusRec))
    (uploadId : String) : StatusRec :=
  (statusMap.lookup uploadId).getD
    { status := .error, detail := "Unknown upload_id", session_id := none }

/-- `start_add_materials(session_id, new_text)` (rag.py lines 1360–1374):
raises before creating the job record or submitting the worker when
`load_resume_raw(session_id)` is falsy (`None` or `""`); otherwise creates
the `PARSING` record and schedules `_add_materials_worker`.  `raw` is the
stored raw text; the `Except.error` branch carries the `ValueError`
message. -/
def startAddMaterials (sessionId : String) (raw : Option String)
    (uploadId : String) : Except String (String × StatusRec) :=
  if !pyOptTruthy raw then
    .error ("Session " ++ sessionId ++ " has no resume. Upload resume first.")
  else
    .ok (uploadId,
      { status := .parsing, detail := "Merging materials and re-processing...",
        session_id := some sessionId })

/-- Outcome of `_add_materials_worker`: either the `ERROR` status update, or
a run that stores `storedRaw` as the session raw text and re-runs the full
pipeline on `pipelineText`. -/
inductive WorkerResult where
  | errored (detail : String) : WorkerResult
  | ran (storedRaw pipelineText : String) : WorkerResult
deriving Repr, DecidableEq

/-- `_add_materials_worker(upload_id, session_id, new_text)` (rag.py lines
1344–1357): re-check the stored raw text (`not raw or not raw.strip()`),
then store and re-process `raw.strip() + "\n\n" + new_text.strip()`. -/
def addMaterialsWorker (raw : Option String) (newText : String) :
    WorkerResult :=
  if !pyOptTruthy raw || pyStripS (raw.getD "") = "" then
    .errored "No existing resume to merge. Upload resume first."
  else
    .ran (pyStripS (raw.getD "") ++ "\n\n" ++ pyStripS newText)
      (pyStripS (raw.getD "") ++ "\n\n" ++ pyStripS newText)

/-- Amended C8.  `start_add_materials` fails (raising, so no job record is
created and no worker is scheduled) exactly when the stored raw text is
absent or empty; when the worker runs with a stored raw text whose trimmed
form is non-empty, it stores the **trimmed** old text concatenated with the
**trimmed** new text by a blank-line separator and re-runs the full pipeline
on exactly that merged text.  (The source strips both sides before joining —
see the counterexample against the unstripped reading.) -/
theorem addMaterials_flow :
    (∀ sid uid (raw : Option String), pyOptTruthy raw = false →
        startAddMaterials sid raw uid
          = .error ("Session " ++ sid ++ " has no resume. Upload resume first."))
    ∧ (∀ sid uid (raw : Option String), pyOptTruthy raw = true →
        startAddMaterials sid raw uid
          = .ok (uid,
              { status := .parsing,
                detail := "Merging materials and re-processing...",
                session_id := some sid }))
    ∧ (∀ (raw newText : String), pyStripS raw ≠ "" →
        addMaterialsWorker (some raw) newText
          = .ran (pyStripS raw ++ "\n\n" ++ pyStripS newText)
              (pyStripS raw ++ "\n\n" ++ pyStripS newText)) := by
  refine ⟨fun sid uid raw h => ?_, fun sid uid raw h => ?_,
    fun raw newText h => ?_⟩
  · rw [startAddMaterials, if_pos (by rw [h]; rfl)]
  · rw [startAddMaterials, if_neg (by rw [h]; simp)]
  · have ht : pyOptTruthy (some raw) = true := by
      rw [pyOptTruthy]
      by_cases hr : raw = ""
      · subst hr; exact absurd rfl h
      · simp [hr]
    rw [addMaterialsWorker, if_neg (by rw [ht]; simpa using h)]
    rfl

/-- Witness for the amended C8 at concrete inputs. -/
theorem addMaterials_flow_witness :
    startAddMaterials "s" none "u"
      = .error ("Session " ++ "s" ++ " has no resume. Upload resume first.")
    ∧ addMaterialsWorker (some "old") "new"
      = .ran (pyStripS "old" ++ "\n\n" ++ pyStripS "new")
          (pyStripS "old" ++ "\n\n" ++ pyStripS "new") :=
  ⟨addMaterials_flow.1 "s" "u" none (by decide),
    addMaterials_flow.2.2 "old" "new" (by decide)⟩

/-- Counterexample to C8 as stated: the worker does not store
`old ++ "\n\n" ++ new` — it strips both sides first.  With stored raw
`"a "` and new text `"b"` it stores `"a\n\nb"`, not `"a \n\nb"`. -/
theorem addMaterials_merge_counterexample :
    ¬ (∀ (raw newText : String), pyStripS raw ≠ "" →
        addMaterialsWorker (some raw) newText
          = .ran (raw ++ "\n\n" ++ newText) (raw ++ "\n\n" ++ newText)) := by
  intro h
  have := h "a " "b" (by decide)
  exact absurd this (by decide)

/-- An abstract FAISS index as the search functions use it: its vector count
`ntotal` and its `search` collaborator returning the zipped
`(score, position)` rows for a query and a `k` (faiss itself is an external
library, modelled at the call boundary like the embedding service). -/
structure FaissIndex (V : Type) where
  ntotal : Nat
  search : V → Nat → List (ℚ × Int)

/-- `EvidenceChunk` (models.py lines 82–86), scores as exact rationals. -/
structure EvidenceChunk where
  chunk_id : String
  text : String
  source : String
  score : ℚ
deriving Repr, DecidableEq

/-- Result-collection loop of `search_jd_index` (rag.py lines 1214–1229):
skip out-of-range positions, post-filter by role when a role string is
given, and stop once `top_k` results are collected (`count` is the number
already collected). -/
def collectJdResults (meta : List JdMeta) (roleStr : Option String)
    (topK : Nat) : List (ℚ × Int) → Nat → List EvidenceChunk
  | [], _ => []
  | (score, pos) :: rest, count =>
      if h : 0 ≤ pos ∧ pos.toNat < meta.length then
        let m := meta[pos.toNat]
        if pyOptTruthy roleStr && !(m.role == roleStr.getD "") then
          collectJdResults meta roleStr topK rest count
        else
          let ec : EvidenceChunk := ⟨m.chunk_id, m.text, "jd", score⟩
          if topK ≤ count + 1 then [ec]
          else ec :: collectJdResults meta roleStr topK rest (count + 1)
      else collectJdResults meta roleStr topK rest count

/-- `search_jd_index(query, role, top_k)` (rag.py lines 1184–1232): empty
result when the persisted index is absent or the metadata list is empty;
otherwise over-fetch `min(top_k * 3, ntotal)` rows and post-filter. -/
def searchJdIndex {V : Type} (embedSingle : String → V)
    (index : Option (FaissIndex V)) (meta : List JdMeta) (query : String)
    (role : Option String) (topK : Option Nat) : List EvidenceChunk :=
  let top_k := topK.getD getTopK
  match index with
  | none => []
  | some idx =>
      if meta.isEmpty then []
      else
        collectJdResults meta role top_k
          (idx.search (embedSingle query) (min (top_k * 3) idx.ntotal)) 0

/-- Result-collection loop of `search_resume_index` (rag.py lines
1400–1410): no role filter and no break. -/
def collectResumeResults (meta : List ResumeMeta) :
    List (ℚ × Int) → List EvidenceChunk
  | [] => []
  | (score, pos) :: rest =>
      if h : 0 ≤ pos ∧ pos.toNat < meta.length then
        let m := meta[pos.toNat]
        ⟨m.chunk_id, m.text, "resume", score⟩ :: collectResumeResults meta rest
      else collectResumeResults meta rest

/-- `search_resume_index(session_id, query, top_k)` (rag.py lines
1377–1412): empty result when the session's persisted index is absent or its
metadata list is empty; otherwise fetch `min(top_k, ntotal)` rows. -/
def searchResumeIndex {V : Type} (embedSingle : String → V)
    (index : Option (FaissIndex V)) (meta : List ResumeMeta) (query : String)
    (topK : Option Nat) : List EvidenceChunk :=
  let top_k := topK.getD getTopK
  match index with
  | none => []
  | some idx =>
      if meta.isEmpty then []
      else
        collectResumeResults meta
          (idx.search (embedSingle query) (min top_k idx.ntotal))

/-- C10.  Reads on missing data never throw: an unknown upload id yields the
`ERROR`/`"Unknown upload_id"` record (total `dict.get`), and both index
searches return the empty list when the persisted index is absent or the
metadata list is empty, for every query, role and `top_k`. -/
theorem readOps_missing_safe :
    (∀ (statusMap : List (String × StatusRec)) (uid : String),
        statusMap.lookup uid = none →
        getUploadStatus statusMap uid
          = { status := .error, detail := "Unknown upload_id",
              session_id := none })
    ∧ (∀ (V : Type) (e : String → V) (meta : List JdMeta) (q : String)
        (role : Option String) (tk : Option Nat),
        searchJdIndex e none meta q role tk = [])
    ∧ (∀ (V : Type) (e : String → V) (idx : Option (FaissIndex V)) (q : String)
        (role : Option String) (tk : Option Nat),
        searchJdIndex e idx [] q role tk = [])
    ∧ (∀ (V : Type) (e : String → V) (meta : List ResumeMeta) (q : String)
        (tk : Option Nat), searchResumeIndex e none meta q tk = [])
    ∧ (∀ (V : Type) (e : String → V) (idx : Option (FaissIndex V)) (q : String)
        (tk : Option Nat), searchResumeIndex e idx [] q tk = []) := by
  refine ⟨fun m uid h => ?_, fun V e meta q role tk => rfl,
    fun V e idx q role tk => ?_, fun V e meta q tk => rfl,
    fun V e idx q tk => ?_⟩
  · rw [getUploadStatus, h]; rfl
  · cases idx with
    | none => rfl
    | some i => simp [searchJdIndex]
  · cases idx with
    | none => rfl
    | some i => simp [searchResumeIndex]

/-- Witness for C10: the unknown-id record on the empty status map, and the
empty JD search on an absent index. -/
theorem readOps_missing_safe_witness :
    getUploadStatus [] "x"
      = { status := .error, detail := "Unknown upload_id", session_id := none }
    ∧ searchJdIndex (V := Unit) (fun _ => ()) none [] "q" none none = [] :=
  ⟨readOps_missing_safe.1 [] "x" rfl,
    readOps_missing_safe.2.1 Unit (fun _ => ()) [] "q" none none⟩

/-! ## Claim C7: heuristic fallback parser
(`_heuristic_structured` rag.py lines 461–651, `_strip_noise_sections`
434–453, `_looks_like_experience_header` 456–458, `_preprocess_resume_text`
833–857, `_clean_list`/`_coerce_structured` 365–431,
`extract_resume_structure` 705–830)

The regular expressions of the heuristic parser are embedded through a small
backtracking matcher: a pattern is a function from the character list and a
start position to the list of candidate end positions in Python's
backtracking preference order (alternation left-first, quantifiers
greedy-longest-first); `re.search` scans start positions left to right and
takes the first position with a candidate, `re.match` anchors at 0. -/

/-- A pattern: candidate match-end positions in preference order. -/
abbrev Matcher := List Char → Nat → List Nat

/-- Literal (case-insensitive when `ci`, as under `re.IGNORECASE`). -/
def mlit (lit : List Char) (ci : Bool) : Matcher := fun s i =>
  let rest := s.drop i
  let ok := if ci then (lit.map Char.toLower).isPrefixOf (rest.map Char.toLower)
    else lit.isPrefixOf rest
  if ok then [i + lit.length] else []

/-- Length of the maximal run of `p`-characters starting at `i`. -/
def runLenAt (p : Char → Bool) (s : List Char) (i : Nat) : Nat :=
  ((s.drop i).takeWhile p).length

/-- Single character of a class. -/
def mclass (p : Char → Bool) : Matcher := fun s i =>
  match s.drop i with
  | [] => []
  | c :: _ => if p c then [i + 1] else []

/-- Greedy `[class]*`: longest first. -/
def mclassStar (p : Char → Bool) : Matcher := fun s i =>
  ((List.range (runLenAt p s i + 1)).reverse).map (i + ·)

/-- Greedy `[class]+`: longest first, at least one. -/
def mclassPlus (p : Char → Bool) : Matcher := fun s i =>
  (((List.range (runLenAt p s i + 1)).reverse).map (i + ·)).dropLast

/-- Sequencing with backtracking. -/
def mseq (a b : Matcher) : Matcher := fun s i => (a s i).flatMap (b s)

/-- Ordered alternation. -/
def malts (ms : List Matcher) : Matcher := fun s i => ms.flatMap (fun m => m s i)

/-- Greedy `?`. -/
def mopt (a : Matcher) : Matcher := fun s i => a s i ++ [i]

/-- `[a-z]` under `re.IGNORECASE`. -/
def isAlphaCi (c : Char) : Bool :=
  ('a' ≤ c && c ≤ 'z') || ('A' ≤ c && c ≤ 'Z')

/-- `\w` (ASCII). -/
def isWordChar (c : Char) : Bool := c.isAlphanum || c = '_'

/-- `[\w\s]` / `[\s\w]`. -/
def isWordOrSpace (c : Char) : Bool := isWordChar c || pyIsSpace c

def mdigit : Matcher := mclass Char.isDigit
def mdigit2 : Matcher := mseq mdigit mdigit
def mdigit4 : Matcher := mseq mdigit (mseq mdigit (mseq mdigit mdigit))
def mOptDot : Matcher := mopt (mlit ['.'] false)

/-- Month alternation of the date pattern, in source order (rag.py lines
505–511); `Sept` is reached as `Sep` + `[a-z]*`. -/
def monthWords : List String :=
  ["Jan", "Feb", "Mar", "Apr", "May", "Jun", "Jul", "Aug", "Sep", "Sept",
   "Oct", "Nov", "Dec"]

def mMonth : Matcher := malts (monthWords.map fun w => mlit w.data true)

/-- `(?:MONTH)[a-z]*\.?\s*\d{4}`. -/
def mDateAltMonth : Matcher :=
  mseq mMonth (mseq (mclassStar isAlphaCi)
    (mseq mOptDot (mseq (mclassStar pyIsSpace) mdigit4)))

/-- `\d{4}` then a dash or slash then `\d{2}`. -/
def mDateAltYmd : Matcher :=
  mseq mdigit4 (mseq (mclass fun c => c = '-' || c = '/') mdigit2)

/-- Group 1 of the date pattern. -/
def mG1 : Matcher := malts [mDateAltMonth, mDateAltYmd, mdigit4]

/-- `\s*[-–—to]+\s*` — a character class, so it also matches bare `t`/`o`
runs, and under `IGNORECASE` also `T`/`O`. -/
def mSep : Matcher :=
  mseq (mclassStar pyIsSpace)
    (mseq (mclassPlus fun c =>
        c = '-' || c = '–' || c = '—' || c = 't' || c = 'o' || c = 'T' || c = 'O')
      (mclassStar pyIsSpace))

/-- Group 2 of the date pattern (adds `Present|Current`). -/
def mG2 : Matcher :=
  malts [mDateAltMonth, mDateAltYmd, mdigit4,
    mlit "Present".data true, mlit "Current".data true]

def firstSome {α β : Type} (f : α → Option β) : List α → Option β
  | [] => none
  | a :: t => match f a with | some b => some b | none => firstSome f t

/-- Try the full date pattern at position `i`; on success return the ends of
group 1, of the separator, and of group 2, following backtracking
preference. -/
def dateMatchAt (s : List Char) (i : Nat) : Option (Nat × Nat × Nat) :=
  firstSome (fun e1 =>
    firstSome (fun e2 =>
      firstSome (fun e3 => some (e1, e2, e3)) (mG2 s e2)) (mSep s e1)) (mG1 s i)

/-- `date_pattern.search(line)`: leftmost match, as
`(start, end₁, start₂, end)`. -/
def dateSearch (s : List Char) : Option (Nat × Nat × Nat × Nat) :=
  firstSome (fun i => (dateMatchAt s i).map fun t => (i, t.1, t.2.1, t.2.2))
    (List.range (s.length + 1))

/-- `date_pattern.sub("", line)`: remove every (non-overlapping, leftmost)
match; fuelled by the line length (every match consumes at least one
character). -/
def dateSubGo : Nat → List Char → List Char
  | 0, s => s
  | fuel + 1, s =>
      match dateSearch s with
      | none => s
      | some (i, _, _, e3) => s.take i ++ dateSubGo fuel (s.drop (max e3 (i + 1)))

def dateSub (s : List Char) : List Char := dateSubGo s.length s

/-- `_parse_date_from_line` (rag.py lines 503–519): on a match return
`(group(1), group(2), sub-all-matches stripped of " ,|-–")`, else
`(None, None, line)`. -/
def parseDateFromLine (line : List Char) :
    Option String × Option String × List Char :=
  match dateSearch line with
  | some (i, e1, e2, e3) =>
      (some (String.mk (pySlice line i e1)),
        some (String.mk (pySlice line e2 e3)),
        pyStripSet " ,|-–".data (dateSub line))
  | none => (none, none, line)

/-- Case-insensitive prefix test (`pattern.match` of a plain word
alternation under `IGNORECASE`, and `upper()/lower()` + `startswith`). -/
def ciIsPrefix (w : List Char) (l : List Char) : Bool :=
  ((l.take w.length).map Char.toLower) == (w.map Char.toLower)

/-- Case-insensitive substring search for any of the words
(`re.search("(w1|w2|...)", line, IGNORECASE)` as a boolean). -/
def ciContainsAny (ws : List String) (l : List Char) : Bool :=
  (List.range (l.length + 1)).any fun i =>
    ws.any fun w => ciIsPrefix w.data (l.drop i)

/-- `re.search(pattern, line)` as a boolean. -/
def msearchBool (m : Matcher) (s : List Char) : Bool :=
  (List.range (s.length + 1)).any fun i => !(m s i).isEmpty

/-- `re.search(pattern, line)` returning the leftmost match's span. -/
def msearchExtract (m : Matcher) (s : List Char) : Option (Nat × Nat) :=
  firstSome (fun i => match m s i with | [] => none | e :: _ => some (i, e))
    (List.range (s.length + 1))

/-- `—.*\|\s*\d{4}` (first disjunct of `_looks_like_experience_header`). -/
def mExpHdr1 : Matcher :=
  mseq (mlit ['—'] false) (mseq (mclassStar fun c => c ≠ '\n')
    (mseq (mlit ['|'] false) (mseq (mclassStar pyIsSpace) mdigit4)))

/-- `\d{4}\s*[–-]\s*(Present|\d{4})` — the part after the `\b` of the second
disjunct. -/
def mExpHdr2rest : Matcher :=
  mseq mdigit4 (mseq (mclassStar pyIsSpace)
    (mseq (mclass fun c => c = '–' || c = '-')
      (mseq (mclassStar pyIsSpace) (malts [mlit "Present".data true, mdigit4]))))

/-- Is the character before position `i` a word character (for `\b` ahead of
a digit)? -/
def prevIsWord (s : List Char) (i : Nat) : Bool :=
  match i with
  | 0 => false
  | j + 1 => match s[j]? with
    | some c => isWordChar c
    | none => false

/-- `_looks_like_experience_header` (rag.py lines 456–458). -/
def looksLikeExperienceHeader (l : List Char) : Bool :=
  msearchBool mExpHdr1 l ||
  (List.range (l.length + 1)).any fun i =>
    !(prevIsWord l i) && !(mExpHdr2rest l i).isEmpty

/-- The four section kinds of the heuristic parser. -/
inductive Section where
  | education | experience | projects | skills
deriving Repr, DecidableEq

/-- `SECTION_PATTERNS` tried in dict order (rag.py lines 471–476 and
496–501): anchored case-insensitive alternations. -/
def isSectionHeader (l : List Char) : Option Section :=
  if ["EDUCATION", "ACADEMIC", "DEGREE"].any
      (fun w => ciIsPrefix w.data l) then some .education
  else if ["EXPERIENCE", "EMPLOYMENT", "WORK", "CAREER", "PROFESSIONAL"].any
      (fun w => ciIsPrefix w.data l) then some .experience
  else if ["PROJECT", "PERSONAL PROJECT", "ACADEMIC PROJECT"].any
      (fun w => ciIsPrefix w.data l) then some .projects
  else if ["SKILL", "TECHNICAL SKILL", "COMPETENC"].any
      (fun w => ciIsPrefix w.data l) then some .skills
  else none

/-- `^-?\s*(MLE|SWE|DS|QD|QR)\s*:` under `IGNORECASE`, anchored
(`re.match`). -/
def mNoiseRole : Matcher :=
  mseq (mopt (mlit ['-'] false)) (mseq (mclassStar pyIsSpace)
    (mseq (malts (["MLE", "SWE", "DS", "QD", "QR"].map fun w => mlit w.data true))
      (mseq (mclassStar pyIsSpace) (mlit [':'] false))))

def noiseRoleLine (l : List Char) : Bool := !(mNoiseRole l 0).isEmpty

/-- `_strip_noise_sections` (rag.py lines 434–453): drop a role-fit score
section; a blank line ends it, a `SUMMARY` line ends it and is kept. -/
def stripNoiseGo : Bool → List String → List String
  | _, [] => []
  | skip, ln :: rest =>
      if ciIsPrefix "GROUND-TRUTH ROLE FIT".data ln.data
          || ciIsPrefix "ROLE FIT".data ln.data then
        stripNoiseGo true rest
      else if skip && noiseRoleLine ln.data then stripNoiseGo true rest
      else if skip && pyStripS ln == "" then stripNoiseGo false rest
      else if skip then
        (if ciIsPrefix "SUMMARY".data ln.data then ln :: stripNoiseGo false rest
         else stripNoiseGo true rest)
      else ln :: stripNoiseGo false rest

def institutionWords : List String :=
  ["University", "College", "Institute", "School", "Academy"]

/-- `(Bachelor|Master|Ph\.?D|B\.?S\.?|M\.?S\.?|M\.?A\.?|B\.?A\.?)` under
`IGNORECASE`, alternatives in source order. -/
def mDegreeCore : Matcher :=
  malts [mlit "Bachelor".data true,
    mlit "Master".data true,
    mseq (mlit "Ph".data true) (mseq mOptDot (mlit "D".data true)),
    mseq (mlit "B".data true) (mseq mOptDot (mseq (mlit "S".data true) mOptDot)),
    mseq (mlit "M".data true) (mseq mOptDot (mseq (mlit "S".data true) mOptDot)),
    mseq (mlit "M".data true) (mseq mOptDot (mseq (mlit "A".data true) mOptDot)),
    mseq (mlit "B".data true) (mseq mOptDot (mseq (mlit "A".data true) mOptDot))]

/-- `([\w\s]+(?:University|College|Institute|School|Academy)[\w\s]*)`. -/
def mSchool : Matcher :=
  mseq (mclassPlus isWordOrSpace)
    (mseq (malts (institutionWords.map fun w => mlit w.data true))
      (mclassStar isWordOrSpace))

/-- `(Bachelor|...)[\s\w]*` for the degree text. -/
def mDegreeExtract : Matcher := mseq mDegreeCore (mclassStar isWordOrSpace)

/-- `(\d+\.?\d*)` for the GPA value. -/
def mGpa : Matcher :=
  mseq (mclassPlus Char.isDigit) (mseq mOptDot (mclassStar Char.isDigit))

/-- `ln.startswith(("-", "•", "*", "◦", "▪"))`. -/
def bulletChars : List Char := ['-', '•', '*', '◦', '▪']

def isBulletLine (l : List Char) : Bool :=
  match l with
  | [] => false
  | c :: _ => bulletChars.contains c

/-- `ln.lstrip("-•*◦▪ ").strip()`. -/
def bulletText (l : List Char) : List Char :=
  pyStrip (l.dropWhile fun c => bulletChars.contains c || c = ' ')

/-- Scanner state of `_heuristic_structured` (the three output lists, the
current section, the current block, and the uuid-supply counter). -/
structure HeurState where
  experiences : List ExpBlock
  projects : List ProjBlock
  education : List EduBlock
  currentSection : Option Section
  currentBlock : Option Block
  counter : Nat
deriving Repr, DecidableEq

def initHeurState : HeurState := ⟨[], [], [], none, none, 0⟩

/-- `_save_current_block` (rag.py lines 484–494): append the pending block
to the list of the section it was opened under (blocks are only created
inside the education/experience/projects sections, so the block's kind
always matches the section; a pending block under `skills` or no section is
discarded, as in the source). -/
def saveCurrentBlock (st : HeurState) : HeurState :=
  match st.currentBlock with
  | none => st
  | some b =>
      match st.currentSection, b with
      | some .education, .edu e =>
          { st with education := st.education ++ [e], currentBlock := none }
      | some .experience, .exp e =>
          { st with experiences := st.experiences ++ [e], currentBlock := none }
      | some .projects, .proj p =>
          { st with projects := st.projects ++ [p], currentBlock := none }
      | _, _ => { st with currentBlock := none }

/-- `current_block["bullets"].append(...)`. -/
def Block.addBullet : Block → String → Block
  | .exp b, s => .exp { b with bullets := b.bullets ++ [s] }
  | .proj b, s => .proj { b with bullets := b.bullets ++ [s] }
  | .edu b, s => .edu { b with bullets := b.bullets ++ [s] }

/-- `current_block["gpa"] = ...` (only education blocks are current in the
education section). -/
def Block.setGpa : Block → String → Block
  | .edu b, g => .edu { b with gpa := some g }
  | b, _ => b

/-- Education-section handling of a non-bullet line (rag.py lines 547–586). -/
def eduLine (fresh : Nat → String) (st : HeurState) (lnS : String)
    (sd ed : Option String) : HeurState :=
  let ln := lnS.data
  let isNew := sd.isSome || ciContainsAny institutionWords ln
    || msearchBool mDegreeCore ln
  if isNew then
    let st := saveCurrentBlock st
    let school := (msearchExtract mSchool ln).map
      fun p => String.mk (pyStrip (pySlice ln p.1 p.2))
    let degree := (msearchExtract mDegreeExtract ln).map
      fun p => String.mk (pyStrip (pySlice ln p.1 p.2))
    { st with
      currentBlock := some (.edu
        { block_id := some ("edu_" ++ fresh st.counter), school := school,
          degree := degree, field := none, location := none,
          start_date := sd, end_date := ed, gpa := none, bullets := [] }),
      counter := st.counter + 1 }
  else
    match st.currentBlock with
    | some b =>
        if ciIsPrefix "gpa".data ln then
          match msearchExtract mGpa ln with
          | some p =>
              let g := String.mk (pySlice ln p.1 p.2)
              { st with currentBlock := some (b.setGpa g) }
          | none => { st with currentBlock := some (b.addBullet lnS) }
        else { st with currentBlock := some (b.addBullet lnS) }
    | none => st

/-- Experience-section handling of a non-bullet line (rag.py lines
588–606). -/
def expLine (fresh : Nat → String) (st : HeurState) (lnS : String)
    (sd ed : Option String) (remaining : List Char) : HeurState :=
  let ln := lnS.data
  let isNew := looksLikeExperienceHeader ln || sd.isSome
  if isNew then
    let st := saveCurrentBlock st
    { st with
      currentBlock := some (.exp
        { block_id := some ("exp_" ++ fresh st.counter), company := none,
          title := some (if remaining.isEmpty then lnS else String.mk remaining),
          location := none, start_date := sd, end_date := ed,
          bullets := [], skills_tags := [], ownership := none }),
      counter := st.counter + 1 }
  else
    match st.currentBlock with
    | some b => { st with currentBlock := some (b.addBullet lnS) }
    | none => st

/-- Projects-section handling of a non-bullet line (rag.py lines 608–625);
lines were stripped on entry, so `ln.startswith(" ")` is translated on the
line as given. -/
def projLine (fresh : Nat → String) (st : HeurState) (lnS : String)
    (sd ed : Option String) (remaining : List Char) : HeurState :=
  let ln := lnS.data
  let startsWithSpace : Bool := match ln with
    | ' ' :: _ => true
    | _ => false
  let isNew := sd.isSome || (!startsWithSpace && decide (ln.length < 100))
  if isNew && (sd.isSome || st.currentBlock.isNone) then
    let st := saveCurrentBlock st
    { st with
      currentBlock := some (.proj
        { block_id := some ("proj_" ++ fresh st.counter),
          name := some (if remaining.isEmpty then lnS else String.mk remaining),
          role := none, location := none, start_date := sd, end_date := ed,
          bullets := [], skills_tags := [], ownership := none }),
      counter := st.counter + 1 }
  else
    match st.currentBlock with
    | some b => { st with currentBlock := some (b.addBullet lnS) }
    | none => st

/-- Per-line transition of the `_heuristic_structured` scanner (rag.py
lines 521–625). -/
def lineStep (fresh : Nat → String) (st : HeurState) (lnS : String) :
    HeurState :=
  let ln := lnS.data
  match isSectionHeader ln with
  | some sec =>
      let st := saveCurrentBlock st
      { st with currentSection := some sec }
  | none =>
      let st :=
        match st.currentSection with
        | none =>
            if looksLikeExperienceHeader ln then
              { st with currentSection := some Section.experience }
            else st
        | some _ => st
      match st.currentSection with
      | none => st
      | some sec =>
          if isBulletLine ln then
            let bt := bulletText ln
            match st.currentBlock with
            | some b =>
                if bt.isEmpty then st
                else { st with currentBlock := some (b.addBullet (String.mk bt)) }
            | none => st
          else
            let pd := parseDateFromLine ln
            match sec with
            | .education => eduLine fresh st lnS pd.1 pd.2.1
            | .experience => expLine fresh st lnS pd.1 pd.2.1 pd.2.2
            | .projects => projLine fresh st lnS pd.1 pd.2.1 pd.2.2
            | .skills => st

/-- Bullet detection of the all-else-failed branch (rag.py line 632):
`ln.startswith(("-", "•", "*"))` — a smaller set than the main loop's. -/
def fbBulletStart (l : List Char) : Bool :=
  match l with
  | [] => false
  | c :: _ => c = '-' || c = '•' || c = '*'

/-- `ln.lstrip("-•* ").strip()`. -/
def fbBulletText (l : List Char) : List Char :=
  pyStrip (l.dropWhile fun c => c = '-' || c = '•' || c = '*' || c = ' ')

/-- Split on newline characters (`str.splitlines()` for `\n`-separated
text; empty segments are filtered out right after, as in the source). -/
def splitOnNl : List Char → List (List Char)
  | [] => [[]]
  | c :: rest =>
      match splitOnNl rest with
      | [] => [[c]]
      | h :: t => if c = '\n' then [] :: h :: t else (c :: h) :: t

/-- `raw_lines = [ln.strip() for ln in (text or "").splitlines() if
ln.strip()]` followed by `_strip_noise_sections` (rag.py lines 467–468). -/
def heuristicLines (text : String) : List String :=
  stripNoiseGo false
    (((splitOnNl text.data).map fun l => pyStripS (String.mk l)).filter
      fun s => s ≠ "")

/-- Run the scanner over the cleaned lines and commit the final block. -/
def heuristicScan (fresh : Nat → String) (lines : List String) : HeurState :=
  saveCurrentBlock (lines.foldl (lineStep fresh) initHeurState)

/-- `_heuristic_structured(text)` (rag.py lines 461–651), with `fresh`
supplying the `uuid4().hex[:8]` block-id suffixes.  Lines are split on
newlines, stripped and filtered, noise sections removed, the scanner run,
and — when no block at all was parsed — a single experience block is
synthesized from the bullet-looking lines (or the first 10 lines). -/
def heuristicStructured (fresh : Nat → String) (text : String) : Structured :=
  let lines := heuristicLines text
  let stF := heuristicScan fresh lines
  if stF.experiences.isEmpty && stF.education.isEmpty && stF.projects.isEmpty then
    let bullets := (lines.filter fun l => fbBulletStart l.data).map
      fun l => String.mk (fbBulletText l.data)
    let bullets := if bullets.isEmpty then lines.take 10 else bullets
    let fbBlock : ExpBlock :=
      { block_id := some ("exp_" ++ fresh stF.counter), company := none,
        title := none, location := none, start_date := none, end_date := none,
        bullets := bullets, skills_tags := [], ownership := none }
    { experiences := [fbBlock], projects := [], education := [] }
  else
    { experiences := stF.experiences, projects := stF.projects,
      education := stF.education }

/-- `re.sub(r"\t+\s*", " | ", line)`: a run of tabs and any following
whitespace becomes a pipe separator (rag.py lines 850–852).  Fuelled by the
line length; every replacement consumes at least the leading tab. -/
def tabSubGo : Nat → List Char → List Char
  | 0, l => l
  | _ + 1, [] => []
  | fuel + 1, c :: rest =>
      if c = '\t' then ' ' :: '|' :: ' ' :: tabSubGo fuel (rest.dropWhile pyIsSpace)
      else c :: tabSubGo fuel rest

/-- `re.sub(r"  +", " ", line)`: runs of two or more spaces collapse to
one (rag.py line 854). -/
def collapseSpacesGo : Nat → List Char → List Char
  | 0, l => l
  | _ + 1, [] => []
  | fuel + 1, c :: rest =>
      if c = ' ' && !(rest.takeWhile (fun d => d = ' ')).isEmpty then
        ' ' :: collapseSpacesGo fuel (rest.dropWhile fun d => d = ' ')
      else c :: collapseSpacesGo fuel rest

/-- Per-line normalization of `_preprocess_resume_text` (rag.py lines
848–855). -/
def preprocessLine (l : List Char) : List Char :=
  let l := if l.contains '\t' then tabSubGo l.length l else l
  pyStrip (collapseSpacesGo l.length l)

/-- `_preprocess_resume_text(text)` (rag.py lines 833–857): normalize each
line and re-join with newlines. -/
def preprocessResumeText (text : String) : String :=
  String.intercalate "\n"
    ((splitOnNl text.data).map fun ln => String.mk (preprocessLine ln))

/-- An item dict of the generation collaborator's structured content, with
every key `_coerce_structured` may read (absent keys ↦ `none`/`vnone`). -/
structure RawItem where
  block_id : Option String
  company : Option String
  title : Option String
  name : Option String
  role : Option String
  school : Option String
  degree : Option String
  field : Option String
  location : Option String
  start_date : Option String
  end_date : Option String
  gpa : Option String
  bullets : CVal
  skills_tags : CVal
  ownership : Option String
deriving Repr, DecidableEq

/-- The effective structured content dict: each of the three keys is a list
or treated as absent (rag.py lines 383–385). -/
structure RawStructured where
  experiences : Option (List RawItem)
  projects : Option (List RawItem)
  education : Option (List RawItem)
deriving Repr, DecidableEq

/-- `_attach_block_ids` for one item: `item.get("block_id") or` the
uuid-based fallback id built from the section's id stem (rag.py lines
373–379). -/
def attachId (pfx : String) (u : String) (given : Option String) :
    Option String :=
  some ((pyOrOpt given (some (pfx ++ "_" ++ u))).getD (pfx ++ "_" ++ u))

/-- `_coerce_structured(content)` (rag.py lines 382–431): normalize the
three lists field-by-field through `_clean_list` and attach block ids. -/
def coerceStructured (fresh : Nat → String) (c : RawStructured) : Structured :=
  let exps := (c.experiences.getD []).enum.map fun q =>
    ({ block_id := attachId "exp" (fresh q.1) q.2.block_id,
       company := q.2.company, title := q.2.title, location := q.2.location,
       start_date := q.2.start_date, end_date := q.2.end_date,
       bullets := cleanList q.2.bullets,
       skills_tags := cleanList q.2.skills_tags,
       ownership := q.2.ownership } : ExpBlock)
  let nE := (c.experiences.getD []).length
  let projs := (c.projects.getD []).enum.map fun q =>
    ({ block_id := attachId "proj" (fresh (nE + q.1)) q.2.block_id,
       name := q.2.name, role := q.2.role, location := q.2.location,
       start_date := q.2.start_date, end_date := q.2.end_date,
       bullets := cleanList q.2.bullets,
       skills_tags := cleanList q.2.skills_tags,
       ownership := q.2.ownership } : ProjBlock)
  let nP := (c.projects.getD []).length
  let edus := (c.education.getD []).enum.map fun q =>
    ({ block_id := attachId "edu" (fresh (nE + nP + q.1)) q.2.block_id,
       school := q.2.school, degree := q.2.degree, field := q.2.field,
       location := q.2.location, start_date := q.2.start_date,
       end_date := q.2.end_date, gpa := q.2.gpa,
       bullets := cleanList q.2.bullets } : EduBlock)
  { experiences := exps, projects := projs, education := edus }

/-- One validated segmentation block (rag.py lines 676–682); `sectionKind`
is the block's `section` tag. -/
structure SegBlock where
  sectionKind : String
  header_lines : List String
  meta_lines : List String
  bullet_lines : List String
  raw_lines : List String
deriving Repr, DecidableEq

/-- `extract_resume_structure(text)` (rag.py lines 705–830), with the
generation collaborator modelled by its effective responses: `segBlocks` is
the validated block list of the segmentation pass (empty when the response
was absent, a string, or carried no usable `blocks`), and
`mapContent`/`singleContent` are the effective dict contents of the mapping
and single-pass calls.  Returns the structured resume together with the
`path_used` trace tag.  The exception branches (collaborator errors) fall
through the same chain and are not modelled; the claim's scenario — both
responses empty — exercises the non-exceptional path. -/
def extractResumeStructure (fresh : Nat → String) (segBlocks : List SegBlock)
    (mapContent singleContent : RawStructured) (text : String) :
    Structured × String :=
  let hasBlocks : Structured → Bool := fun s =>
    !s.experiences.isEmpty || !s.projects.isEmpty || !s.education.isEmpty
  let singlePass : Structured × String :=
    let s := coerceStructured fresh singleContent
    if hasBlocks s then (s, "single_pass")
    else (heuristicStructured fresh (preprocessResumeText text), "heuristic")
  if !segBlocks.isEmpty then
    let s := coerceStructured fresh mapContent
    if hasBlocks s then (s, "two_pass") else singlePass
  else singlePass

/-- Amended C7.  When the segmentation pass yields no blocks and the
single-pass content coerces to no blocks, `extract_resume_structure` takes
the heuristic path on the preprocessed text; and for **every** input text
the heuristic parser returns at least one block — when the scanner parses
nothing at all, a single experience block is synthesized — so extraction
always returns some structured output.  (At least one *experience* block,
as literally claimed, fails on education-only text: see the
counterexample.) -/
theorem extract_heuristic_fallback :
    (∀ (fresh : Nat → String) (mapC singleC : RawStructured) (text : String),
        coerceStructured fresh singleC = ⟨[], [], []⟩ →
        extractResumeStructure fresh [] mapC singleC text
          = (heuristicStructured fresh (preprocessResumeText text), "heuristic"))
    ∧ (∀ (fresh : Nat → String) (text : String),
        1 ≤ (heuristicStructured fresh text).experiences.length
          + (heuristicStructured fresh text).projects.length
          + (heuristicStructured fresh text).education.length) := by
  constructor
  · intro fresh mapC singleC text h
    simp [extractResumeStructure, h]
  · intro fresh text
    rw [heuristicStructured]
    by_cases hc : ((heuristicScan fresh (heuristicLines text)).experiences.isEmpty
        && (heuristicScan fresh (heuristicLines text)).education.isEmpty
        && (heuristicScan fresh (heuristicLines text)).projects.isEmpty)
    · rw [if_pos hc]; simp
    · rw [if_neg hc]
      simp only [Bool.and_eq_true, List.isEmpty_iff, not_and_or] at hc
      rcases hc with (hc | hc) | hc <;>
        · have h1 := List.length_pos.mpr hc
          dsimp only
          omega

/-- Witness for the amended C7: both collaborator responses empty on the
text `"x"`. -/
theorem extract_heuristic_fallback_witness :
    extractResumeStructure (fun n => toString n) [] ⟨none, none, none⟩
        ⟨none, none, none⟩ "x"
      = (heuristicStructured (fun n => toString n)
          (preprocessResumeText "x"), "heuristic")
    ∧ 1 ≤ (heuristicStructured (fun n => toString n) "x").experiences.length
        + (heuristicStructured (fun n => toString n) "x").projects.length
        + (heuristicStructured (fun n => toString n) "x").education.length :=
  ⟨extract_heuristic_fallback.1 (fun n => toString n) ⟨none, none, none⟩
      ⟨none, none, none⟩ "x" (by decide),
    extract_heuristic_fallback.2 (fun n => toString n) "x"⟩

/-- An education-only resume text. -/
def eduOnlyText : String := "EDUCATION\nMIT University\n- studied"

/-- Counterexample to C7 as stated: on the non-empty education-only text the
heuristic parser returns an education block but **zero** experience blocks,
so "always returns at least one experience block for non-empty input text"
fails (the synthesized experience block only appears when no block at all
was parsed). -/
theorem heuristic_experience_counterexample :
    ¬ (∀ (fresh : Nat → String) (text : String), text ≠ "" →
        (heuristicStructured fresh text).experiences ≠ []) := by
  intro h
  exact h (fun n => toString n) eduOnlyText (by decide) (by decide)

end JobFit
